import Mathlib

/-!
Verification development for the AeroHub bank-schedule application.

The TypeScript source is shallowly embedded in Lean 4.  JavaScript `number`
values arising from time arithmetic are always integers or `NaN` here, so we
model them as `Option ℤ` (`none` = `NaN`).  The JavaScript `%` operator is
truncated remainder, modelled by `Int.tmod`.  JavaScript string falsiness
(`undefined` and `""` are falsy) is modelled explicitly.
-/

namespace AeroHub

/-- JS numbers produced by the app's time arithmetic: an integer or `NaN`. -/
abbrev JSNum := Option ℤ

/-- Addition on JS numbers; `NaN` propagates. -/
def jnAdd (a b : JSNum) : JSNum := do pure ((← a) + (← b))

/-- Subtraction on JS numbers; `NaN` propagates. -/
def jnSub (a b : JSNum) : JSNum := do pure ((← a) - (← b))

/-- The JS `%` operator (truncated remainder) with an integer right operand;
`NaN` propagates. -/
def jnMod (a : JSNum) (n : ℤ) : JSNum := a.map (fun x => Int.tmod x n)

/-- JS string falsiness: `undefined` and the empty string are falsy. -/
def jsFalsyStr : Option String → Bool
  | none => true
  | some s => s.data.isEmpty

/-- The JS `a || b` idiom on optional strings. -/
def jsOrStr (a b : Option String) : Option String :=
  if jsFalsyStr a then b else a

/-- ASCII upper-casing of one character, as JS `toUpperCase` acts on the
ASCII letters occurring in the app's port codes and airline names. -/
def upChar (c : Char) : Char :=
  if 'a' ≤ c ∧ c ≤ 'z' then Char.ofNat (c.toNat - 32) else c

/-- JS `String.prototype.toUpperCase` on the app's ASCII data. -/
def toUpperJS (s : String) : String := String.mk (s.data.map upChar)

/-- JS `String.prototype.split(sep)` for a one-character separator,
on the underlying character list. -/
def splitOnChar (sep : Char) : List Char → List (List Char)
  | [] => [[]]
  | c :: rest =>
    let tail := splitOnChar sep rest
    if c = sep then [] :: tail
    else match tail with
      | [] => [[c]]
      | t :: ts => (c :: t) :: ts

/-- JS `String.prototype.includes(":")`. -/
def containsColon (s : String) : Bool := s.data.contains ':'

/-- JS `String.prototype.startsWith`. -/
def startsWithJS (s p : String) : Bool := List.isPrefixOf p.data s.data

/-- Substring search on character lists. -/
def listIncludes (sub : List Char) : List Char → Bool
  | [] => sub.isEmpty
  | c :: t => List.isPrefixOf sub (c :: t) || listIncludes sub t

/-- JS `String.prototype.includes`. -/
def includesJS (s sub : String) : Bool := listIncludes sub.data s.data

/-- Decimal digit test. -/
def isDigitChar (c : Char) : Bool := '0' ≤ c ∧ c ≤ '9'

/-- Numeric value of a list of decimal digits, most significant first. -/
def digitsVal (cs : List Char) : ℕ :=
  cs.foldl (fun acc c => acc * 10 + (c.toNat - 48)) 0

/-- JS `Number(s)` restricted to the strings the app feeds it: the empty
string converts to `0`, a string of decimal digits (optionally with a
leading minus sign) to its value, anything else to `NaN` (`none`).
Whitespace, decimal points and exponents never occur in the app's
time fields and are not modelled. -/
def jsNumber (cs : List Char) : JSNum :=
  if cs = [] then some 0
  else if cs.headD ' ' = '-' then
    (if cs.tail ≠ [] ∧ cs.tail.all isDigitChar then some (-(digitsVal cs.tail : ℤ))
     else none)
  else if cs.all isDigitChar then some ((digitsVal cs : ℤ)) else none

/-- JS `parseInt(s)` restricted likewise: parses a maximal leading run of
decimal digits (optionally after a minus sign) and ignores the rest;
`NaN` when there is no leading digit. -/
def parseIntJS (cs : List Char) : JSNum :=
  if cs.headD ' ' = '-' then
    (let run := cs.tail.takeWhile isDigitChar
     if run = [] then none else some (-(digitsVal run : ℤ)))
  else
    (let run := cs.takeWhile isDigitChar
     if run = [] then none else some ((digitsVal run : ℤ)))

/-- Decimal numeral of a natural number as JS `Number.prototype.toString`
produces it (fuel-based so that it reduces definitionally). -/
def natToDigitsAux : ℕ → ℕ → List Char
  | 0, _ => []
  | fuel + 1, n =>
    if n < 10 then [Char.ofNat (48 + n)]
    else natToDigitsAux fuel (n / 10) ++ [Char.ofNat (48 + n % 10)]

/-- Decimal numeral of a natural number. -/
def natToDigits (n : ℕ) : List Char := natToDigitsAux (n + 1) n

/-- JS `String.prototype.padStart(2, "0")`. -/
def padStart2 (cs : List Char) : List Char :=
  if cs.length ≥ 2 then cs else List.replicate (2 - cs.length) '0' ++ cs

/-!  ## Time model

`getMins` is the helper at the top of `App.tsx`; `getMinutes` is the helper
inside `HubBankChart`; `minsToTime` is the inverse formatter in `App.tsx`.
-/

/-- From `App.tsx`:
`if (!timeStr || !timeStr.includes(":")) return 0;` then
`const [h, m] = timeStr.split(":").map(Number); return h * 60 + m;`. -/
def getMins (s : String) : JSNum :=
  if s.data.isEmpty ∨ ¬ containsColon s then some 0
  else
    let parts := splitOnChar ':' s.data
    let h := jsNumber (parts.getD 0 [])
    let m := jsNumber (parts.getD 1 [])
    jnAdd (h.map (· * 60)) m

/-- From `HubBankChart.tsx` (`getMinutes`): an exact `HH:mm` time is parsed
as `h * 60 + m`; a missing or colon-free string falls back to the slot's
top of hour. -/
def getMinutes (slotIndex : ℕ) (exactTime : Option String) : JSNum :=
  match exactTime with
  | some s =>
    if ¬ s.data.isEmpty ∧ containsColon s then
      let parts := splitOnChar ':' s.data
      let h := jsNumber (parts.getD 0 [])
      let m := jsNumber (parts.getD 1 [])
      jnAdd (h.map (· * 60)) m
    else some ((slotIndex : ℤ) * 60)
  | none => some ((slotIndex : ℤ) * 60)

/-- From `App.tsx` (`minsToTime`): normalise modulo 1440 and format as
`HH:mm`.  On `NaN` input the JS code produces the string `"NaN:NaN"`
(`NaN % 1440` is `NaN`, `Math.floor(NaN)` is `NaN`, `String(NaN)` is
`"NaN"`, which is already two characters long so `padStart` keeps it). -/
def minsToTime (mins : JSNum) : String :=
  match mins with
  | none => String.mk ('N' :: 'a' :: 'N' :: ':' :: 'N' :: 'a' :: 'N' :: [])
  | some z =>
    let normalized : ℤ := Int.tmod (Int.tmod z 1440 + 1440) 1440
    let h : ℤ := normalized / 60
    let m : ℤ := Int.tmod normalized 60
    String.mk (padStart2 (natToDigits h.toNat) ++ ':' :: padStart2 (natToDigits m.toNat))

/-- Hour extraction used when re-bucketing manual flights:
`parseInt(str.split(":")[0])`. -/
def jsHourOf (s : String) : JSNum :=
  parseIntJS ((splitOnChar ':' s.data).getD 0 [])

/-!  ## Wraparound window test -/

/-- From `HubBankChart.tsx` (`checkInWindow` inside
`isFlightInConnectionWindow`):
`let relativeVal = (val - start + 1440) % 1440;`
`return relativeVal >= 0 && relativeVal <= duration;`. -/
def checkInWindow (val start duration : ℤ) : Bool :=
  let relativeVal := Int.tmod (val - start + 1440) 1440
  relativeVal ≥ 0 ∧ relativeVal ≤ duration

/-- Forward clock distance from `start` to `val` on the 1440-minute
cyclic clock (the specification-side notion, using mathematical mod). -/
def fwdDist (start val : ℤ) : ℤ := (val - start) % 1440

lemma tmod_pos_eq_emod {a : ℤ} (h : 0 ≤ a) (n : ℤ) (hn : 0 ≤ n) :
    Int.tmod a n = a % n := Int.tmod_eq_emod h hn

/-- Core characterisation shared by the window lemmas: on minute-of-day
inputs the JS window test coincides with the forward-distance test. -/
lemma checkInWindow_iff_fwdDist {start val : ℤ} (duration : ℤ)
    (hs0 : 0 ≤ start) (hs1 : start < 1440) (hv0 : 0 ≤ val) (hv1 : val < 1440) :
    checkInWindow val start duration = true ↔ fwdDist start val ≤ duration := by
  unfold checkInWindow fwdDist
  have hpos : (0 : ℤ) ≤ val - start + 1440 := by omega
  rw [tmod_pos_eq_emod hpos 1440 (by omega)]
  have hmod : (val - start + 1440) % 1440 = (val - start) % 1440 :=
    Int.add_emod_self
  rw [hmod]
  have hnn : 0 ≤ (val - start) % 1440 := Int.emod_nonneg _ (by omega)
  simp only [ge_iff_le, decide_eq_true_eq, Bool.and_eq_true, decide_eq_true_iff]
  omega

/-!  ## Data model (`types.ts`) -/

/-- Continental buckets from `types.ts`. -/
inductive Region where
  | Africa | AsiaPacific | Europe | MiddleEast | Americas | Unknown
deriving DecidableEq, Repr, Inhabited

/-- Market segments from `types.ts`. -/
inductive MarketSegment where
  | All | Domestic | International
deriving DecidableEq, Repr

/-- Flight direction tag (`'arr' | 'dep'` in the source). -/
inductive Dir where
  | arr | dep
deriving DecidableEq, Repr

/-- The reciprocal direction: `type === 'arr' ? 'dep' : 'arr'`. -/
def Dir.flip : Dir → Dir
  | .arr => .dep
  | .dep => .arr

/-- `FlightInfo` from `types.ts` (final revision).  Optional fields are
`Option`s; a JS `undefined` is `none`. -/
structure FlightInfo where
  id : Option String := none
  code : String := ""
  flightNo : Option String := none
  freq : ℤ := 0
  seats : Option ℤ := none
  pax : Option ℤ := none
  region : Region := Region.Unknown
  airline : Option String := none
  market : Option MarketSegment := none
  isManual : Bool := false
  exactTime : Option String := none
  originalHubTime : Option String := none
deriving DecidableEq, Repr, Inhabited

/-- A displayed block: either a single `FlightInfo` or a consolidated
record that additionally carries `isMerged`/`mergedFlights`.  The source
attaches those fields dynamically; `mergedFlights = none` is the single
case. -/
structure Block where
  base : FlightInfo
  mergedFlights : Option (List FlightInfo) := none
deriving DecidableEq, Repr, Inhabited

/-- A plain (unmerged) block. -/
def Block.single (f : FlightInfo) : Block := ⟨f, none⟩

/-- The JS idiom `(flight as any).mergedFlights || [flight]`. -/
def blockFlights (b : Block) : List FlightInfo :=
  match b.mergedFlights with
  | some l => l
  | none => [b.base]

/-!  ## Connection matcher (`HubBankChart.tsx`, `isFlightInConnectionWindow`)

The source computes `mctMins = Math.round(mct * 60)` and
`windowMins = Math.round(maxConnectionWindow * 60)` from the hour-valued
sliders; the embedding takes those integer minute counts directly. -/

/-- From `HubBankChart.tsx`: decides whether `targetBlock` is a valid
connection for `sourceBlock`, expanding merged blocks into their
constituent flights and dispatching on the two directions. -/
def isFlightInConnectionWindow (highlightConnections : Bool)
    (mctMins windowMins : ℤ)
    (sourceBlock : Block) (sourceSlotIndex : ℕ) (sourceType : Dir)
    (targetBlock : Block) (targetSlotIndex : ℕ) (targetType : Dir) : Bool :=
  if ¬ highlightConnections then false
  else
    (blockFlights sourceBlock).any fun sf =>
      let sourceMins := getMinutes sourceSlotIndex sf.exactTime
      (blockFlights targetBlock).any fun tf =>
        let targetMins := getMinutes targetSlotIndex tf.exactTime
        match sourceType, targetType with
        | .arr, .dep =>
          let validStart := jnMod (jnAdd sourceMins (some mctMins)) 1440
          match targetMins, validStart with
          | some v, some s => checkInWindow v s windowMins
          | _, _ => false
        | .dep, .arr =>
          let validEnd := jnMod (jnAdd (jnSub sourceMins (some mctMins)) (some 1440)) 1440
          let validStart := jnMod (jnAdd (jnSub validEnd (some windowMins)) (some 1440)) 1440
          match targetMins, validStart with
          | some v, some s => checkInWindow v s windowMins
          | _, _ => false
        | _, _ => false

@[simp] lemma jnAdd_some (a b : ℤ) : jnAdd (some a) (some b) = some (a + b) := rfl

@[simp] lemma jnSub_some (a b : ℤ) : jnSub (some a) (some b) = some (a - b) := rfl

@[simp] lemma jnMod_some (a n : ℤ) : jnMod (some a) n = some (Int.tmod a n) := rfl

/-- C1: for every `start`, `duration` and `value` with `start` and `value`
in `[0, 1440)`, the wraparound window test `checkInWindow` returns true if
and only if the forward clock distance from `start` to `value`, wrapping
past midnight, is at most `duration`. -/
theorem claim_C1_wraparound_window (start duration value : ℤ)
    (hs0 : 0 ≤ start) (hs1 : start < 1440) (hv0 : 0 ≤ value) (hv1 : value < 1440) :
    checkInWindow value start duration = true ↔ fwdDist start value ≤ duration :=
  checkInWindow_iff_fwdDist duration hs0 hs1 hv0 hv1

/-- C1 witness: in particular with `start = 23:30` (1410 minutes) and
`duration = 90`, the value `00:45` (45) is inside the window and `01:01`
(61) is outside. -/
theorem claim_C1_wraparound_window_witness :
    checkInWindow 45 1410 90 = true ∧ checkInWindow 61 1410 90 = false :=
  ⟨(claim_C1_wraparound_window 1410 90 45 (by decide) (by decide) (by decide)
      (by decide)).mpr (by decide),
   by decide⟩

/-- C2: for every focal flight and candidate flight of opposite directions
(minute-of-day values `sm`, `tm`), the connection test holds exactly as
specified: focal arrival / candidate departure connects iff the candidate
lies in the wraparound window starting at `(sm + MCT) mod 1440` of length
`Window`; focal departure / candidate arrival connects iff the candidate
lies in the window of length `Window` ending at `(sm - MCT) mod 1440`;
both window ends inclusive. -/
theorem claim_C2_connection_direction_dispatch
    (mctMins windowMins : ℤ)
    (hm0 : 0 ≤ mctMins) (hm1 : mctMins ≤ 1440)
    (hw0 : 0 ≤ windowMins) (hw1 : windowMins < 1440)
    (sf tf : FlightInfo) (sSlot tSlot : ℕ) (sm tm : ℤ)
    (hs : getMinutes sSlot sf.exactTime = some sm)
    (ht : getMinutes tSlot tf.exactTime = some tm)
    (hsm0 : 0 ≤ sm) (hsm1 : sm < 1440) (htm0 : 0 ≤ tm) (htm1 : tm < 1440) :
    (isFlightInConnectionWindow true mctMins windowMins
        (Block.single sf) sSlot Dir.arr (Block.single tf) tSlot Dir.dep = true
      ↔ fwdDist ((sm + mctMins) % 1440) tm ≤ windowMins)
    ∧ (isFlightInConnectionWindow true mctMins windowMins
        (Block.single sf) sSlot Dir.dep (Block.single tf) tSlot Dir.arr = true
      ↔ fwdDist tm ((sm - mctMins) % 1440) ≤ windowMins) := by
  have h1440 : (0 : ℤ) < 1440 := by omega
  constructor
  · simp only [isFlightInConnectionWindow, blockFlights, Block.single,
      List.any_cons, List.any_nil, hs, ht, jnAdd_some, jnMod_some,
      Bool.or_false, not_true, if_false]
    rw [tmod_pos_eq_emod (by omega) 1440 (by omega)]
    rw [checkInWindow_iff_fwdDist windowMins (Int.emod_nonneg _ (by omega))
      (Int.emod_lt_of_pos _ h1440) htm0 htm1]
  · simp only [isFlightInConnectionWindow, blockFlights, Block.single,
      List.any_cons, List.any_nil, hs, ht, jnAdd_some, jnSub_some, jnMod_some,
      Bool.or_false, not_true, if_false]
    have hE0 : 0 ≤ (sm - mctMins) % 1440 := Int.emod_nonneg _ (by omega)
    have hend : Int.tmod (sm - mctMins + 1440) 1440 = (sm - mctMins) % 1440 := by
      rw [tmod_pos_eq_emod (by omega) 1440 (by omega)]
      exact Int.add_emod_self
    rw [hend]
    have hstart : Int.tmod ((sm - mctMins) % 1440 - windowMins + 1440) 1440 =
        ((sm - mctMins) % 1440 - windowMins) % 1440 := by
      rw [tmod_pos_eq_emod (by omega) 1440 (by omega)]
      exact Int.add_emod_self
    rw [hstart]
    rw [checkInWindow_iff_fwdDist windowMins (Int.emod_nonneg _ (by omega))
      (Int.emod_lt_of_pos _ h1440) htm0 htm1]
    unfold fwdDist
    omega

/-- C2 witness: with MCT = 90 and Window = 360 minutes, an 08:00 arrival
connects to a 10:00 departure but not to a 09:00 departure. -/
theorem claim_C2_connection_direction_dispatch_witness :
    (isFlightInConnectionWindow true 90 360
      (Block.single { code := "BLR", exactTime := some ("08:00") }) 8 Dir.arr
      (Block.single { code := "JFK", exactTime := some ("10:00") }) 10 Dir.dep = true)
    ∧ (isFlightInConnectionWindow true 90 360
      (Block.single { code := "BLR", exactTime := some ("08:00") }) 8 Dir.arr
      (Block.single { code := "CDG", exactTime := some ("09:00") }) 9 Dir.dep = false) := by
  refine ⟨?_, by decide⟩
  exact (claim_C2_connection_direction_dispatch 90 360 (by decide) (by decide)
    (by decide) (by decide) { code := "BLR", exactTime := some ("08:00") }
    { code := "JFK", exactTime := some ("10:00") } 8 10 480 600 (by decide) (by decide)
    (by decide) (by decide) (by decide) (by decide)).1.mpr (by decide)

/-!  ## Consolidation (`HubBankChart.tsx`, `consolidatedData`, final revision)

Merged synthetic ids interpolate `Math.random()`; the embedding threads an
explicit generator `g : ℕ → String` (the textual form of the n-th call) and
a call counter. -/

/-- One hour-of-day bucket of the hub schedule, from `types.ts`. -/
structure HubSlot where
  label : String := ""
  arrivals : List FlightInfo := []
  departures : List FlightInfo := []
deriving DecidableEq, Repr, Inhabited

/-- A consolidated hour bucket: lists of blocks instead of flights. -/
structure SlotBlocks where
  label : String := ""
  arrivals : List Block := []
  departures : List Block := []
deriving DecidableEq, Repr, Inhabited

/-- One step of the grouping loop
`if (!autoGroups[f.code]) autoGroups[f.code] = []; autoGroups[f.code].push(f)`:
append to an existing key's group, else append a new key (JS object keys
enumerate in insertion order for these non-numeric port codes). -/
def upsertGroup (groups : List (String × List FlightInfo)) (f : FlightInfo) :
    List (String × List FlightInfo) :=
  if (groups.find? (fun p => p.1 = f.code)).isSome then
    groups.map (fun p => if p.1 = f.code then (p.1, p.2 ++ [f]) else p)
  else groups ++ [(f.code, [f])]

/-- Grouping of automatic flights by `portCode` only. -/
def groupFlights (flights : List FlightInfo) : List (String × List FlightInfo) :=
  flights.foldl upsertGroup []

/-- The merged block built for a group of size ≥ 2: spread of the first
flight with a fresh synthetic id and summed numeric fields. -/
def mergedBlock (rid : String) (group : List FlightInfo) : Block :=
  let first := group.headD default
  { base := { first with
      id := some ("merged-" ++ first.code ++ "-" ++ rid)
      freq := (group.map (fun f => f.freq)).sum
      seats := some ((group.map (fun f => f.seats.getD 0)).sum)
      pax := some ((group.map (fun f => f.pax.getD 0)).sum) }
    mergedFlights := some group }

/-- `Object.values(autoGroups).map(...)`: a group of size 1 is returned
unchanged, a larger group becomes a merged block (consuming one random
id). -/
def processGroups (g : ℕ → String) :
    ℕ → List (String × List FlightInfo) → List Block × ℕ
  | c, [] => ([], c)
  | c, (_, grp) :: rest =>
    match grp with
    | [f] =>
      let (bs, c') := processGroups g c rest
      (Block.single f :: bs, c')
    | _ =>
      let b := mergedBlock (g c) grp
      let (bs, c') := processGroups g (c + 1) rest
      (b :: bs, c')

/-- The `groupByType` closure of `consolidatedData` (final revision):
split off manual flights, group the automatic ones by port code, and emit
processed automatic blocks first, manual flights untouched after. -/
def groupByType (g : ℕ → String) (c : ℕ) (flights : List FlightInfo) :
    List Block × ℕ :=
  let manualOnes := flights.filter (fun f => f.isManual)
  let autoOnes := flights.filter (fun f => !f.isManual)
  let (processedAuto, c') := processGroups g c (groupFlights autoOnes)
  (processedAuto ++ manualOnes.map Block.single, c')

/-- `consolidatedData`: consolidate every slot, arrivals before
departures, threading the random-id counter in evaluation order. -/
def consolidatedData (g : ℕ → String) :
    ℕ → List HubSlot → List SlotBlocks × ℕ
  | c, [] => ([], c)
  | c, slot :: rest =>
    let (arr, c1) := groupByType g c slot.arrivals
    let (dep, c2) := groupByType g c1 slot.departures
    let (others, c3) := consolidatedData g c2 rest
    ({ label := slot.label, arrivals := arr, departures := dep } :: others, c3)

/-!  ### Grouping lemmas -/

lemma filterSingletonNe {c : String} (f : FlightInfo) (h : ¬ f.code = c) :
    List.filter (fun x => x.code = c) [f] = [] := by
  simp [List.filter_cons, h]

/-- One upsert step preserves the grouping invariant. -/
lemma upsertGroup_inv (groups : List (String × List FlightInfo))
    (processed : List FlightInfo) (f : FlightInfo)
    (h1 : (groups.map Prod.fst).Nodup)
    (h2 : ∀ p ∈ groups, p.2 = processed.filter (fun x => x.code = p.1) ∧ p.2 ≠ [])
    (h3 : ∀ x ∈ processed, x.code ∈ groups.map Prod.fst) :
    ((upsertGroup groups f).map Prod.fst).Nodup
    ∧ (∀ p ∈ upsertGroup groups f,
        p.2 = (processed ++ [f]).filter (fun x => x.code = p.1) ∧ p.2 ≠ [])
    ∧ (∀ x ∈ processed ++ [f], x.code ∈ (upsertGroup groups f).map Prod.fst) := by
  unfold upsertGroup
  by_cases hmem : (groups.find? (fun p => p.1 = f.code)).isSome
  · rw [if_pos hmem]
    have hkeys : (groups.map (fun p => if p.1 = f.code then (p.1, p.2 ++ [f]) else p)).map
        Prod.fst = groups.map Prod.fst := by
      rw [List.map_map]
      apply List.map_congr_left
      intro p _
      by_cases hp : p.1 = f.code <;> simp [hp]
    refine ⟨by rw [hkeys]; exact h1, ?_, ?_⟩
    · intro p hp
      rw [List.mem_map] at hp
      obtain ⟨q, hq, rfl⟩ := hp
      by_cases hqf : q.1 = f.code
      · simp only [hqf, if_true]
        refine ⟨?_, by simp⟩
        rw [List.filter_append, (h2 q hq).1, hqf]
        simp
      · simp only [hqf, if_false]
        refine ⟨?_, (h2 q hq).2⟩
        rw [List.filter_append, (h2 q hq).1,
          filterSingletonNe f (fun hc => hqf hc.symm), List.append_nil]
    · intro x hx
      rw [hkeys]
      rcases List.mem_append.mp hx with hx | hx
      · exact h3 x hx
      · rw [List.mem_singleton] at hx
        subst hx
        obtain ⟨p, hp, hpf⟩ := List.find?_isSome.mp hmem
        rw [decide_eq_true_iff] at hpf
        rw [← hpf]
        exact List.mem_map_of_mem Prod.fst hp
  · rw [if_neg hmem]
    have hnotin : f.code ∉ groups.map Prod.fst := by
      intro hc
      rw [List.mem_map] at hc
      obtain ⟨p, hp, hpc⟩ := hc
      exact hmem (List.find?_isSome.mpr ⟨p, hp, by rw [decide_eq_true_iff]; exact hpc⟩)
    refine ⟨?_, ?_, ?_⟩
    · rw [List.map_append]
      simp only [List.map_cons, List.map_nil]
      exact List.Nodup.append h1 (List.nodup_singleton _)
        (by intro a ha hb; rw [List.mem_singleton] at hb; subst hb; exact hnotin ha)
    · intro p hp
      rcases List.mem_append.mp hp with hp | hp
      · refine ⟨?_, (h2 p hp).2⟩
        have hpne : ¬ f.code = p.1 := by
          intro hc
          exact hnotin (hc ▸ List.mem_map_of_mem Prod.fst hp)
        rw [List.filter_append, (h2 p hp).1, filterSingletonNe f hpne, List.append_nil]
      · rw [List.mem_singleton] at hp
        subst hp
        refine ⟨?_, by simp⟩
        have hproc : processed.filter (fun x => x.code = f.code) = [] := by
          rw [List.filter_eq_nil_iff]
          intro x hx
          rw [decide_eq_true_iff]
          intro hc
          exact hnotin (hc ▸ h3 x hx)
        rw [List.filter_append, hproc]
        simp
    · intro x hx
      rw [List.map_append]
      rcases List.mem_append.mp hx with hx | hx
      · exact List.mem_append.mpr (Or.inl (h3 x hx))
      · rw [List.mem_singleton] at hx
        subst hx
        simp
lemma groupFlights_inv (l : List FlightInfo) :
    ∀ (groups : List (String × List FlightInfo)) (processed : List FlightInfo),
    (groups.map Prod.fst).Nodup →
    (∀ p ∈ groups, p.2 = processed.filter (fun f => f.code = p.1) ∧ p.2 ≠ []) →
    (∀ f ∈ processed, f.code ∈ groups.map Prod.fst) →
    ((l.foldl upsertGroup groups).map Prod.fst).Nodup
    ∧ (∀ p ∈ l.foldl upsertGroup groups,
        p.2 = (processed ++ l).filter (fun f => f.code = p.1) ∧ p.2 ≠ [])
    ∧ (∀ f ∈ processed ++ l, f.code ∈ (l.foldl upsertGroup groups).map Prod.fst) := by
  induction l with
  | nil =>
    intro groups processed h1 h2 h3
    rw [List.foldl_nil, List.append_nil]
    exact ⟨h1, h2, h3⟩
  | cons f l ih =>
    intro groups processed h1 h2 h3
    have step : ∀ (r : FlightInfo → Bool),
        (processed ++ f :: l).filter r = ((processed ++ [f]) ++ l).filter r := by
      intro r; simp
    rw [List.foldl_cons]
    obtain ⟨k1, k2, k3⟩ := upsertGroup_inv groups processed f h1 h2 h3
    obtain ⟨r1, r2, r3⟩ := ih (upsertGroup groups f) (processed ++ [f]) k1 k2 k3
    refine ⟨r1, ?_, ?_⟩
    · intro p hp
      rw [step]
      exact r2 p hp
    · intro x hx
      apply r3
      rcases List.mem_append.mp hx with hx | hx
      · simp [hx]
      · rcases List.mem_cons.mp hx with hx | hx
        · subst hx; simp
        · simp [hx]

/-- The grouping of a flight list: keys are distinct, each group is exactly
the flights sharing its key, groups are nonempty, and every flight's code
has a group. -/
lemma groupFlights_spec (l : List FlightInfo) :
    ((groupFlights l).map Prod.fst).Nodup
    ∧ (∀ p ∈ groupFlights l, p.2 = l.filter (fun f => f.code = p.1) ∧ p.2 ≠ [])
    ∧ (∀ f ∈ l, f.code ∈ (groupFlights l).map Prod.fst) := by
  have := groupFlights_inv l [] [] (by simp) (by simp) (by simp)
  simpa [groupFlights] using this

lemma processGroups_nil (g : ℕ → String) (c : ℕ) : processGroups g c [] = ([], c) := rfl

lemma processGroups_cons_single (g : ℕ → String) (c : ℕ) (key : String)
    (x : FlightInfo) (rest : List (String × List FlightInfo)) :
    processGroups g c ((key, [x]) :: rest) =
      (Block.single x :: (processGroups g c rest).1, (processGroups g c rest).2) := by
  rcases hpr : processGroups g c rest with ⟨bs, c'⟩
  simp [processGroups, hpr]

lemma processGroups_cons_merged (g : ℕ → String) (c : ℕ) (key : String)
    (x y : FlightInfo) (ys : List FlightInfo) (rest : List (String × List FlightInfo)) :
    processGroups g c ((key, x :: y :: ys) :: rest) =
      (mergedBlock (g c) (x :: y :: ys) :: (processGroups g (c + 1) rest).1,
        (processGroups g (c + 1) rest).2) := by
  rcases hpr : processGroups g (c + 1) rest with ⟨bs, c'⟩
  simp [processGroups, hpr]

/-- What `processGroups` produces from a well-formed grouping. -/
lemma processGroups_spec (g : ℕ → String) (groups : List (String × List FlightInfo)) :
    ∀ (c : ℕ),
    (∀ p ∈ groups, (∀ f ∈ p.2, f.code = p.1) ∧ p.2 ≠ []) →
    ((processGroups g c groups).1.map (fun b => b.base.code) = groups.map Prod.fst)
    ∧ (∀ b ∈ (processGroups g c groups).1, ∃ p ∈ groups,
        blockFlights b = p.2 ∧ b.base.code = p.1
        ∧ (p.2.length = 1 → b = Block.single (p.2.headD default))
        ∧ (p.2.length ≠ 1 →
            b.mergedFlights = some p.2
            ∧ (∃ k, b.base.id = some ("merged-" ++ p.1 ++ "-" ++ g k))
            ∧ b.base.freq = (p.2.map (fun f => f.freq)).sum
            ∧ b.base.seats = some ((p.2.map (fun f => f.seats.getD 0)).sum)
            ∧ b.base.pax = some ((p.2.map (fun f => f.pax.getD 0)).sum)))
    ∧ (∀ p ∈ groups, ∃ b ∈ (processGroups g c groups).1, blockFlights b = p.2) := by
  induction groups with
  | nil => intro c _; simp [processGroups_nil]
  | cons hd rest ih =>
    intro c hyp
    obtain ⟨key, grp⟩ := hd
    have hyps : ∀ p ∈ rest, (∀ f ∈ p.2, f.code = p.1) ∧ p.2 ≠ [] := by
      intro p hp; exact hyp p (List.mem_cons_of_mem _ hp)
    rcases grp with _ | ⟨x, grp'⟩
    · exact absurd rfl (hyp (key, []) (List.mem_cons_self _ _)).2
    rcases grp' with _ | ⟨y, ys⟩
    · -- group of size 1
      obtain ⟨i1, i2, i3⟩ := ih c hyps
      rw [processGroups_cons_single]
      have hxcode : x.code = key :=
        (hyp (key, [x]) (List.mem_cons_self _ _)).1 x (List.mem_singleton.mpr rfl)
      refine ⟨?_, ?_, ?_⟩
      · simp only [List.map_cons, i1, Block.single, hxcode]
      · intro b hb
        rcases List.mem_cons.mp hb with hb | hb
        · subst hb
          refine ⟨(key, [x]), List.mem_cons_self _ _, rfl, hxcode, fun _ => rfl,
            fun h => absurd rfl h⟩
        · obtain ⟨p, hp, rest'⟩ := i2 b hb
          exact ⟨p, List.mem_cons_of_mem _ hp, rest'⟩
      · intro p hp
        rcases List.mem_cons.mp hp with hp | hp
        · subst hp
          exact ⟨Block.single x, List.mem_cons_self _ _, rfl⟩
        · obtain ⟨b, hb, hbf⟩ := i3 p hp
          exact ⟨b, List.mem_cons_of_mem _ hb, hbf⟩
    · -- group of size ≥ 2
      obtain ⟨i1, i2, i3⟩ := ih (c + 1) hyps
      rw [processGroups_cons_merged]
      have hhead : (x :: y :: ys).headD default = x := rfl
      have hxcode : x.code = key :=
        (hyp (key, x :: y :: ys) (List.mem_cons_self _ _)).1 x (by simp)
      have hbase : (mergedBlock (g c) (x :: y :: ys)).base.code = key := by
        simp [mergedBlock, hxcode]
      refine ⟨?_, ?_, ?_⟩
      · simp only [List.map_cons, i1, hbase]
      · intro b hb
        rcases List.mem_cons.mp hb with hb | hb
        · subst hb
          refine ⟨(key, x :: y :: ys), List.mem_cons_self _ _, rfl, hbase,
            fun h => by simp at h, fun _ => ?_⟩
          refine ⟨rfl, ⟨c, ?_⟩, ?_, ?_, ?_⟩ <;> simp [mergedBlock, hxcode]
        · obtain ⟨p, hp, rest'⟩ := i2 b hb
          exact ⟨p, List.mem_cons_of_mem _ hp, rest'⟩
      · intro p hp
        rcases List.mem_cons.mp hp with hp | hp
        · subst hp
          exact ⟨mergedBlock (g c) (x :: y :: ys), List.mem_cons_self _ _, rfl⟩
        · obtain ⟨b, hb, hbf⟩ := i3 p hp
          exact ⟨b, List.mem_cons_of_mem _ hb, hbf⟩

/-- Shared characterisation of `groupByType`: the consolidation of one
slot-and-direction flight list. -/
lemma groupByType_spec (g : ℕ → String) (c : ℕ) (flights : List FlightInfo) :
    ∃ autoBlocks c',
      groupByType g c flights =
        (autoBlocks ++ (flights.filter (fun f => f.isManual)).map Block.single, c')
      ∧ (∀ b ∈ autoBlocks,
          blockFlights b =
            (flights.filter (fun f => !f.isManual)).filter (fun f => f.code = b.base.code)
          ∧ blockFlights b ≠ []
          ∧ ((blockFlights b).length = 1 →
              b = Block.single ((blockFlights b).headD default))
          ∧ (2 ≤ (blockFlights b).length →
              b.mergedFlights = some (blockFlights b)
              ∧ (∃ k, b.base.id = some ("merged-" ++ b.base.code ++ "-" ++ g k))
              ∧ b.base.freq = ((blockFlights b).map (fun f => f.freq)).sum
              ∧ b.base.seats = some (((blockFlights b).map (fun f => f.seats.getD 0)).sum)
              ∧ b.base.pax = some (((blockFlights b).map (fun f => f.pax.getD 0)).sum)))
      ∧ (autoBlocks.map (fun b => b.base.code)).Nodup
      ∧ (∀ f ∈ flights, f.isManual = false → ∃ b ∈ autoBlocks, f ∈ blockFlights b) := by
  set autoOnes := flights.filter (fun f => !f.isManual) with hauto
  obtain ⟨g1, g2, g3⟩ := groupFlights_spec autoOnes
  have hyp : ∀ p ∈ groupFlights autoOnes, (∀ f ∈ p.2, f.code = p.1) ∧ p.2 ≠ [] := by
    intro p hp
    refine ⟨?_, (g2 p hp).2⟩
    intro f hf
    have := (g2 p hp).1 ▸ hf
    exact of_decide_eq_true (List.mem_filter.mp this).2
  obtain ⟨p1, p2, p3⟩ := processGroups_spec g (groupFlights autoOnes) c hyp
  refine ⟨(processGroups g c (groupFlights autoOnes)).1,
    (processGroups g c (groupFlights autoOnes)).2, ?_, ?_, ?_, ?_⟩
  · rcases hpg : processGroups g c (groupFlights autoOnes) with ⟨bs, c'⟩
    simp [groupByType, ← hauto, hpg]
  · intro b hb
    obtain ⟨p, hp, hbf, hbc, hone, hmany⟩ := p2 b hb
    have hfilter : p.2 = autoOnes.filter (fun f => f.code = p.1) := (g2 p hp).1
    refine ⟨?_, ?_, ?_, ?_⟩
    · rw [hbf, hfilter, hbc]
    · rw [hbf]; exact (g2 p hp).2
    · intro hlen
      rw [hbf] at hlen ⊢
      exact hone hlen
    · intro hlen
      rw [hbf] at hlen
      have hne : p.2.length ≠ 1 := by omega
      obtain ⟨hm, ⟨k, hid⟩, hfreq, hseats, hpax⟩ := hmany hne
      rw [hbf]
      exact ⟨hm, ⟨k, hbc ▸ hid⟩, hfreq, hseats, hpax⟩
  · rw [p1]; exact g1
  · intro f hf hman
    have hfa : f ∈ autoOnes := by
      rw [hauto]
      exact List.mem_filter.mpr ⟨hf, by rw [hman]; rfl⟩
    have := g3 f hfa
    rw [List.mem_map] at this
    obtain ⟨p, hp, hpc⟩ := this
    obtain ⟨b, hb, hbf⟩ := p3 p hp
    refine ⟨b, hb, ?_⟩
    rw [hbf, (g2 p hp).1]
    exact List.mem_filter.mpr ⟨hfa, by rw [decide_eq_true_iff]; exact hpc.symm⟩

lemma consolidatedData_cons (g : ℕ → String) (c : ℕ) (slot : HubSlot)
    (rest : List HubSlot) :
    consolidatedData g c (slot :: rest) =
      ({ label := slot.label
         arrivals := (groupByType g c slot.arrivals).1
         departures :=
           (groupByType g (groupByType g c slot.arrivals).2 slot.departures).1 } ::
        (consolidatedData g
          (groupByType g (groupByType g c slot.arrivals).2 slot.departures).2 rest).1,
       (consolidatedData g
          (groupByType g (groupByType g c slot.arrivals).2 slot.departures).2 rest).2) := by
  rcases h1 : groupByType g c slot.arrivals with ⟨arr, c1⟩
  rcases h2 : groupByType g c1 slot.departures with ⟨dep, c2⟩
  rcases h3 : consolidatedData g c2 rest with ⟨others, c3⟩
  simp [consolidatedData, h1, h2, h3]

/-- Membership in the consolidated slot list comes from consolidating one
input slot (with some intermediate random counter). -/
lemma consolidatedData_mem (g : ℕ → String) (data : List HubSlot) :
    ∀ (c : ℕ) (sb : SlotBlocks), sb ∈ (consolidatedData g c data).1 →
    ∃ slot ∈ data, ∃ c₀,
      sb.arrivals = (groupByType g c₀ slot.arrivals).1
      ∧ sb.departures =
          (groupByType g ((groupByType g c₀ slot.arrivals).2) slot.departures).1
      ∧ sb.label = slot.label := by
  induction data with
  | nil => intro c sb h; simp [consolidatedData] at h
  | cons slot rest ih =>
    intro c sb h
    rw [consolidatedData_cons] at h
    rcases List.mem_cons.mp h with h | h
    · subst h
      exact ⟨slot, List.mem_cons_self _ _, c, rfl, rfl, rfl⟩
    · obtain ⟨s, hs, c₀, prop⟩ := ih _ sb h
      exact ⟨s, List.mem_cons_of_mem _ hs, c₀, prop⟩

/-- C5: for every hub slot and direction, consolidation partitions the
input flights: automatic flights are grouped by port code only (a group of
size 1 passes through unchanged, a group of size ≥ 2 becomes one merged
block with a new synthetic id), manual flights each pass through as their
own block even when they share a port code and are never merged, and the
output lists all automatic blocks first followed by the manual blocks in
source order. -/
theorem claim_C5_consolidation_partition (g : ℕ → String) (c : ℕ)
    (flights : List FlightInfo) :
    ∃ autoBlocks c',
      groupByType g c flights =
        (autoBlocks ++ (flights.filter (fun f => f.isManual)).map Block.single, c')
      ∧ (∀ b ∈ autoBlocks,
          blockFlights b =
            (flights.filter (fun f => !f.isManual)).filter (fun f => f.code = b.base.code)
          ∧ blockFlights b ≠ []
          ∧ ((blockFlights b).length = 1 →
              b = Block.single ((blockFlights b).headD default))
          ∧ (2 ≤ (blockFlights b).length →
              b.mergedFlights = some (blockFlights b)
              ∧ (∃ k, b.base.id = some ("merged-" ++ b.base.code ++ "-" ++ g k))
              ∧ b.base.freq = ((blockFlights b).map (fun f => f.freq)).sum
              ∧ b.base.seats = some (((blockFlights b).map (fun f => f.seats.getD 0)).sum)
              ∧ b.base.pax = some (((blockFlights b).map (fun f => f.pax.getD 0)).sum)))
      ∧ (autoBlocks.map (fun b => b.base.code)).Nodup
      ∧ (∀ f ∈ flights, f.isManual = false → ∃ b ∈ autoBlocks, f ∈ blockFlights b) :=
  groupByType_spec g c flights

/-- C6: every merged block produced by consolidation carries the sums of
its constituents' frequency, seats and passengers, and its `mergedFlights`
list is exactly the original automatic records of its port code from the
input slot, unaltered. -/
theorem claim_C6_merged_block_sums (g : ℕ → String) (c : ℕ)
    (data : List HubSlot) (sb : SlotBlocks)
    (hsb : sb ∈ (consolidatedData g c data).1) (b : Block)
    (hb : b ∈ sb.arrivals ++ sb.departures) (ml : List FlightInfo)
    (hml : b.mergedFlights = some ml) :
    b.base.freq = (ml.map (fun f => f.freq)).sum
    ∧ b.base.seats = some ((ml.map (fun f => f.seats.getD 0)).sum)
    ∧ b.base.pax = some ((ml.map (fun f => f.pax.getD 0)).sum)
    ∧ 2 ≤ ml.length
    ∧ ∃ slot ∈ data,
        (ml = (slot.arrivals.filter (fun f => !f.isManual)).filter
            (fun f => f.code = b.base.code)
          ∨ ml = (slot.departures.filter (fun f => !f.isManual)).filter
            (fun f => f.code = b.base.code)) := by
  obtain ⟨slot, hslot, c₀, harr, hdep, _⟩ := consolidatedData_mem g data c sb hsb
  have hmlb : blockFlights b = ml := by rw [blockFlights, hml]
  have main : ∀ (fl : List FlightInfo) (cx : ℕ), b ∈ (groupByType g cx fl).1 →
      b.base.freq = (ml.map (fun f => f.freq)).sum
      ∧ b.base.seats = some ((ml.map (fun f => f.seats.getD 0)).sum)
      ∧ b.base.pax = some ((ml.map (fun f => f.pax.getD 0)).sum)
      ∧ 2 ≤ ml.length
      ∧ ml = (fl.filter (fun f => !f.isManual)).filter (fun f => f.code = b.base.code) := by
    intro fl cx hbmem
    obtain ⟨autoBlocks, c', heq, hprops, _, _⟩ := groupByType_spec g cx fl
    rw [heq] at hbmem
    rcases List.mem_append.mp hbmem with hbmem | hbmem
    · obtain ⟨hfilter, hne, hone, hmany⟩ := hprops b hbmem
      have hlen : 2 ≤ (blockFlights b).length := by
        rcases Nat.lt_or_ge (blockFlights b).length 2 with hlt | hge
        · have h01 : (blockFlights b).length = 0 ∨ (blockFlights b).length = 1 := by omega
          rcases h01 with h0 | h1
          · exact absurd (List.length_eq_zero.mp h0) hne
          · have hb1 := hone h1
            rw [hb1] at hml
            simp [Block.single] at hml
        · exact hge
      obtain ⟨hm, _, hfreq, hseats, hpax⟩ := hmany hlen
      rw [hmlb] at hfreq hseats hpax hlen hfilter
      exact ⟨hfreq, hseats, hpax, hlen, hfilter.symm ▸ rfl⟩
    · rw [List.mem_map] at hbmem
      obtain ⟨f, _, hbf⟩ := hbmem
      rw [← hbf] at hml
      simp [Block.single] at hml
  rcases List.mem_append.mp hb with hbm | hbm
  · rw [harr] at hbm
    obtain ⟨h1, h2, h3, h4, h5⟩ := main slot.arrivals c₀ hbm
    exact ⟨h1, h2, h3, h4, slot, hslot, Or.inl h5⟩
  · rw [hdep] at hbm
    obtain ⟨h1, h2, h3, h4, h5⟩ := main slot.departures _ hbm
    exact ⟨h1, h2, h3, h4, slot, hslot, Or.inr h5⟩

/-!  ## Static reference data (`constants.tsx`) -/

/-- `INDIAN_AIRPORTS` from `constants.tsx`. -/
def indianAirportsList : List String :=
  ["BLR", "BOM", "DEL", "MAA", "HYD", "CCU", "COK", "AMD", "LKO", "TRV",
   "PNQ", "CNN", "GWL", "JAI", "IXE", "AYJ", "CCJ", "GOX", "GAU", "BBI",
   "VGA", "VTZ", "NMI", "NAG", "TRZ", "IXZ", "IXR", "UDR", "IXC", "IXB",
   "HDO", "JDH", "STV", "IDR", "DED", "IXD", "IXA", "RPR", "HBX", "BDQ",
   "BHO", "CJB", "IXM", "IXG", "NDC", "VDY", "KJB", "TCR", "JLR", "BEK",
   "ISK", "SXV", "DGH", "IXJ", "RDP", "TIR", "SDW", "JSA", "KLH", "HSR",
   "RJA", "AGR", "IXU", "AGX", "RQY", "SAG", "JRG", "KNU", "PNY", "VNS",
   "PAT", "ATQ", "GOI", "IXX", "SXR", "GOP"]

/-- JS `INDIAN_AIRPORTS.has(code)`. -/
def indianAirports (code : String) : Bool := indianAirportsList.contains code

/-- `AIRPORT_REGIONS` from `constants.tsx`. -/
def airportRegionsList : List (String × Region) :=
  [("ICN", Region.AsiaPacific), ("NRT", Region.AsiaPacific), ("HKG", Region.AsiaPacific),
   ("SIN", Region.AsiaPacific), ("BKK", Region.AsiaPacific), ("PVG", Region.AsiaPacific),
   ("PEK", Region.AsiaPacific), ("KUL", Region.AsiaPacific), ("MNL", Region.AsiaPacific),
   ("CGK", Region.AsiaPacific), ("SYD", Region.AsiaPacific), ("MEL", Region.AsiaPacific),
   ("BLR", Region.AsiaPacific), ("BOM", Region.AsiaPacific), ("DEL", Region.AsiaPacific),
   ("MAA", Region.AsiaPacific), ("HYD", Region.AsiaPacific), ("CCU", Region.AsiaPacific),
   ("COK", Region.AsiaPacific), ("AMD", Region.AsiaPacific), ("LKO", Region.AsiaPacific),
   ("HKT", Region.AsiaPacific), ("CNX", Region.AsiaPacific), ("USM", Region.AsiaPacific),
   ("HND", Region.AsiaPacific), ("KIX", Region.AsiaPacific), ("NGO", Region.AsiaPacific),
   ("FUK", Region.AsiaPacific), ("TPE", Region.AsiaPacific), ("KHH", Region.AsiaPacific),
   ("SGN", Region.AsiaPacific), ("HAN", Region.AsiaPacific), ("DAC", Region.AsiaPacific),
   ("KTM", Region.AsiaPacific), ("ISB", Region.AsiaPacific), ("KHI", Region.AsiaPacific),
   ("LHE", Region.AsiaPacific), ("CMB", Region.AsiaPacific), ("MLE", Region.AsiaPacific),
   ("BJS", Region.AsiaPacific), ("CAN", Region.AsiaPacific), ("SZX", Region.AsiaPacific),
   ("CTU", Region.AsiaPacific), ("KMG", Region.AsiaPacific), ("AKL", Region.AsiaPacific),
   ("CHC", Region.AsiaPacific), ("BNE", Region.AsiaPacific), ("PER", Region.AsiaPacific),
   ("VNS", Region.AsiaPacific), ("PAT", Region.AsiaPacific), ("ATQ", Region.AsiaPacific),
   ("GOI", Region.AsiaPacific), ("PEW", Region.AsiaPacific), ("MUX", Region.AsiaPacific),
   ("LYP", Region.AsiaPacific), ("SKT", Region.AsiaPacific), ("DMK", Region.AsiaPacific),
   ("TRV", Region.AsiaPacific), ("PNQ", Region.AsiaPacific), ("CNN", Region.AsiaPacific),
   ("GWL", Region.AsiaPacific), ("JAI", Region.AsiaPacific), ("IXE", Region.AsiaPacific),
   ("AYJ", Region.AsiaPacific), ("CCJ", Region.AsiaPacific), ("GOX", Region.AsiaPacific),
   ("GAU", Region.AsiaPacific), ("BBI", Region.AsiaPacific), ("VGA", Region.AsiaPacific),
   ("VTZ", Region.AsiaPacific), ("NMI", Region.AsiaPacific), ("NAG", Region.AsiaPacific),
   ("TRZ", Region.AsiaPacific), ("IXZ", Region.AsiaPacific), ("IXR", Region.AsiaPacific),
   ("UDR", Region.AsiaPacific), ("IXC", Region.AsiaPacific), ("IXB", Region.AsiaPacific),
   ("HDO", Region.AsiaPacific), ("JDH", Region.AsiaPacific), ("STV", Region.AsiaPacific),
   ("IDR", Region.AsiaPacific), ("DED", Region.AsiaPacific), ("IXD", Region.AsiaPacific),
   ("IXA", Region.AsiaPacific), ("RPR", Region.AsiaPacific), ("HBX", Region.AsiaPacific),
   ("BDQ", Region.AsiaPacific), ("BHO", Region.AsiaPacific), ("CJB", Region.AsiaPacific),
   ("IXM", Region.AsiaPacific), ("IXG", Region.AsiaPacific), ("NDC", Region.AsiaPacific),
   ("VDY", Region.AsiaPacific), ("KJB", Region.AsiaPacific), ("TCR", Region.AsiaPacific),
   ("JLR", Region.AsiaPacific), ("BEK", Region.AsiaPacific), ("ISK", Region.AsiaPacific),
   ("SXV", Region.AsiaPacific), ("DGH", Region.AsiaPacific), ("KBV", Region.AsiaPacific),
   ("LGK", Region.AsiaPacific), ("IXX", Region.AsiaPacific), ("SXR", Region.AsiaPacific),
   ("IXJ", Region.AsiaPacific), ("RDP", Region.AsiaPacific), ("TIR", Region.AsiaPacific),
   ("SDW", Region.AsiaPacific), ("JSA", Region.AsiaPacific), ("KLH", Region.AsiaPacific),
   ("HSR", Region.AsiaPacific), ("GOP", Region.AsiaPacific), ("RJA", Region.AsiaPacific),
   ("AGR", Region.AsiaPacific), ("IXU", Region.AsiaPacific), ("AGX", Region.AsiaPacific),
   ("RQY", Region.AsiaPacific), ("SAG", Region.AsiaPacific), ("DPS", Region.AsiaPacific),
   ("JRG", Region.AsiaPacific), ("KNU", Region.AsiaPacific), ("PNY", Region.AsiaPacific),
   ("LHR", Region.Europe), ("CDG", Region.Europe), ("FRA", Region.Europe),
   ("AMS", Region.Europe), ("MAD", Region.Europe), ("FCO", Region.Europe),
   ("IST", Region.Europe), ("MUC", Region.Europe), ("LGW", Region.Europe),
   ("STN", Region.Europe), ("MAN", Region.Europe), ("EDI", Region.Europe),
   ("ORY", Region.Europe), ("NCE", Region.Europe), ("LYS", Region.Europe),
   ("BCN", Region.Europe), ("AGP", Region.Europe), ("ZRH", Region.Europe),
   ("GVA", Region.Europe), ("VIE", Region.Europe), ("CPH", Region.Europe),
   ("ARN", Region.Europe), ("OSL", Region.Europe), ("HEL", Region.Europe),
   ("DME", Region.Europe), ("SVO", Region.Europe), ("LED", Region.Europe),
   ("WAW", Region.Europe), ("PRG", Region.Europe), ("BUD", Region.Europe),
   ("ATH", Region.Europe), ("LIS", Region.Europe), ("DUB", Region.Europe),
   ("BRU", Region.Europe), ("MXP", Region.Europe), ("VCE", Region.Europe),
   ("BHX", Region.Europe), ("JED", Region.MiddleEast), ("RUH", Region.MiddleEast),
   ("DXB", Region.MiddleEast), ("DOH", Region.MiddleEast), ("AUH", Region.MiddleEast),
   ("KWI", Region.MiddleEast), ("AMM", Region.MiddleEast), ("BAH", Region.MiddleEast),
   ("MCT", Region.MiddleEast), ("DMM", Region.MiddleEast), ("MED", Region.MiddleEast),
   ("TJV", Region.MiddleEast), ("BEY", Region.MiddleEast), ("THR", Region.MiddleEast),
   ("IKA", Region.MiddleEast), ("BGW", Region.MiddleEast), ("SLL", Region.MiddleEast),
   ("SHJ", Region.MiddleEast), ("HAS", Region.MiddleEast), ("ABW", Region.MiddleEast),
   ("ELQ", Region.MiddleEast), ("TUO", Region.MiddleEast), ("WAE", Region.MiddleEast),
   ("AQI", Region.MiddleEast), ("JFK", Region.Americas), ("LAX", Region.Americas),
   ("ORD", Region.Americas), ("DFW", Region.Americas), ("SFO", Region.Americas),
   ("YYZ", Region.Americas), ("GRU", Region.Americas), ("EZE", Region.Americas),
   ("IAD", Region.Americas), ("ATL", Region.Americas), ("MIA", Region.Americas),
   ("IAH", Region.Americas), ("DEN", Region.Americas), ("SEA", Region.Americas),
   ("BOS", Region.Americas), ("EWR", Region.Americas), ("MEX", Region.Americas),
   ("CUN", Region.Americas), ("PTY", Region.Americas), ("BOG", Region.Americas),
   ("LIM", Region.Americas), ("SCL", Region.Americas), ("GIG", Region.Americas),
   ("YVR", Region.Americas), ("YUL", Region.Americas), ("PHX", Region.Americas),
   ("LAS", Region.Americas), ("MCO", Region.Americas), ("CAI", Region.Africa),
   ("JNB", Region.Africa), ("CPT", Region.Africa), ("NBO", Region.Africa),
   ("LOS", Region.Africa), ("ADD", Region.Africa), ("CAS", Region.Africa),
   ("ACC", Region.Africa), ("ALG", Region.Africa), ("TUN", Region.Africa),
   ("CMN", Region.Africa), ("RAK", Region.Africa), ("TNG", Region.Africa),
   ("DJE", Region.Africa), ("MIR", Region.Africa), ("AGA", Region.Africa),
   ("HBE", Region.Africa), ("SSH", Region.Africa), ("KAN", Region.Africa),
   ("CZL", Region.Africa), ("ORN", Region.Africa), ("NBE", Region.Africa),
   ("LXR", Region.Africa), ("ASW", Region.Africa), ("HRG", Region.Africa),
   ("DKR", Region.Africa), ("ABJ", Region.Africa), ("LUN", Region.Africa),
   ("HRE", Region.Africa), ("DAR", Region.Africa), ("EBB", Region.Africa),
   ("KGL", Region.Africa), ("MRU", Region.Africa), ("TNR", Region.Africa),
   ("MPM", Region.Africa), ("LAD", Region.Africa), ("BJM", Region.Africa)]

/-- The lookup `AIRPORT_REGIONS[code] || Region.Unknown`. -/
def airportRegions (code : String) : Region :=
  ((airportRegionsList.find? (fun p => p.1 = code)).map (fun p => p.2)).getD Region.Unknown

/-!  ### Concrete consolidation inputs used by witnesses -/

/-- Two automatic flights sharing a port code. -/
def wfA : FlightInfo := { code := "DXB", freq := 3, seats := some 100, pax := some 50 }

/-- Second automatic flight at the same port. -/
def wfB : FlightInfo := { code := "DXB", freq := 4, pax := some 10 }

/-- A manual flight at the same port. -/
def wfM : FlightInfo := { id := some "m1", code := "DXB", freq := 1, isManual := true }

/-- A fixed random-id stream. -/
def wG : ℕ → String := fun _ => "0.5"

/-- One slot holding the three flights above. -/
def wData : List HubSlot := [{ label := "00:00", arrivals := [wfA, wfB, wfM] }]

/-- The merged block the consolidation builds from `wfA` and `wfB`. -/
def wMerged : Block := mergedBlock ("0.5") [wfA, wfB]

/-- The consolidated slot. -/
def wSB : SlotBlocks := { label := "00:00", arrivals := [wMerged, Block.single wfM] }

/-- C5 witness: the consolidation characterisation instantiated at a
concrete slot with two same-port automatic flights and one manual
flight. -/
theorem claim_C5_consolidation_partition_witness :
    ∃ autoBlocks c',
      groupByType wG 0 [wfA, wfB, wfM] =
        (autoBlocks ++ (([wfA, wfB, wfM].filter (fun f => f.isManual)).map Block.single), c')
      ∧ (∀ b ∈ autoBlocks,
          blockFlights b =
            ([wfA, wfB, wfM].filter (fun f => !f.isManual)).filter
              (fun f => f.code = b.base.code)
          ∧ blockFlights b ≠ []
          ∧ ((blockFlights b).length = 1 →
              b = Block.single ((blockFlights b).headD default))
          ∧ (2 ≤ (blockFlights b).length →
              b.mergedFlights = some (blockFlights b)
              ∧ (∃ k, b.base.id = some ("merged-" ++ b.base.code ++ "-" ++ wG k))
              ∧ b.base.freq = ((blockFlights b).map (fun f => f.freq)).sum
              ∧ b.base.seats = some (((blockFlights b).map (fun f => f.seats.getD 0)).sum)
              ∧ b.base.pax = some (((blockFlights b).map (fun f => f.pax.getD 0)).sum)))
      ∧ (autoBlocks.map (fun b => b.base.code)).Nodup
      ∧ (∀ f ∈ [wfA, wfB, wfM], f.isManual = false → ∃ b ∈ autoBlocks, f ∈ blockFlights b) :=
  claim_C5_consolidation_partition wG 0 [wfA, wfB, wfM]

/-- C6 witness: the merged-block sum invariant at the concrete slot. -/
theorem claim_C6_merged_block_sums_witness :
    wMerged.base.freq = (([wfA, wfB].map (fun f => f.freq)).sum)
    ∧ wMerged.base.seats = some (([wfA, wfB].map (fun f => f.seats.getD 0)).sum)
    ∧ wMerged.base.pax = some (([wfA, wfB].map (fun f => f.pax.getD 0)).sum)
    ∧ 2 ≤ ([wfA, wfB] : List FlightInfo).length
    ∧ ∃ slot ∈ wData,
        ([wfA, wfB] = (slot.arrivals.filter (fun f => !f.isManual)).filter
            (fun f => f.code = wMerged.base.code)
          ∨ [wfA, wfB] = (slot.departures.filter (fun f => !f.isManual)).filter
            (fun f => f.code = wMerged.base.code)) :=
  claim_C6_merged_block_sums wG 0 wData wSB (by decide) wMerged (by decide)
    [wfA, wfB] (by decide)

/-!  ### Numeral formatting and parsing lemmas -/

lemma digitChar_spec (d : ℕ) (hd : d < 10) :
    isDigitChar (Char.ofNat (48 + d)) = true ∧ (Char.ofNat (48 + d)).toNat = 48 + d := by
  interval_cases d <;> exact ⟨by decide, by decide⟩

lemma digitsVal_append_one (xs : List Char) (c : Char) :
    digitsVal (xs ++ [c]) = digitsVal xs * 10 + (c.toNat - 48) := by
  unfold digitsVal
  rw [List.foldl_append]
  rfl

lemma natToDigitsAux_spec (fuel : ℕ) :
    ∀ n : ℕ, n < 10 ^ (fuel + 1) →
      (natToDigitsAux (fuel + 1) n).all isDigitChar = true
      ∧ natToDigitsAux (fuel + 1) n ≠ []
      ∧ digitsVal (natToDigitsAux (fuel + 1) n) = n := by
  induction fuel with
  | zero =>
    intro n hn
    have h10 : n < 10 := by simpa using hn
    rw [natToDigitsAux, if_pos h10]
    obtain ⟨hdig, htn⟩ := digitChar_spec n h10
    refine ⟨by simp [hdig], by simp, ?_⟩
    simp [digitsVal, htn]
  | succ fuel ih =>
    intro n hn
    by_cases h10 : n < 10
    · rw [natToDigitsAux, if_pos h10]
      obtain ⟨hdig, htn⟩ := digitChar_spec n h10
      refine ⟨by simp [hdig], by simp, ?_⟩
      simp [digitsVal, htn]
    · rw [natToDigitsAux, if_neg h10]
      have hdiv : n / 10 < 10 ^ (fuel + 1) := by
        apply Nat.div_lt_of_lt_mul
        rw [pow_succ] at hn
        omega
      obtain ⟨ia, ine, iv⟩ := ih (n / 10) hdiv
      have hlt : n % 10 < 10 := Nat.mod_lt _ (by omega)
      obtain ⟨hdig, htn⟩ := digitChar_spec (n % 10) hlt
      refine ⟨?_, by simp, ?_⟩
      · rw [List.all_append]
        simp [ia, hdig]
      · rw [digitsVal_append_one, iv, htn]
        omega

lemma natToDigits_spec (n : ℕ) :
    (natToDigits n).all isDigitChar = true
    ∧ natToDigits n ≠ []
    ∧ digitsVal (natToDigits n) = n := by
  have hlt : n < 10 ^ (n + 1) := by
    calc n < 10 ^ n := Nat.lt_pow_self (by omega) n
    _ ≤ 10 ^ (n + 1) := Nat.pow_le_pow_right (by omega) (by omega)
  exact natToDigitsAux_spec n n hlt

lemma jsNumber_of_digits (cs : List Char) (hne : cs ≠ [])
    (hall : cs.all isDigitChar = true) :
    jsNumber cs = some ((digitsVal cs : ℤ)) := by
  unfold jsNumber
  rw [if_neg hne]
  have hhead : cs.headD ' ' ≠ '-' := by
    rcases cs with _ | ⟨c, rest⟩
    · exact absurd rfl hne
    · simp only [List.headD_cons]
      intro hc
      rw [List.all_cons] at hall
      rw [hc] at hall
      simp [isDigitChar] at hall
  rw [if_neg hhead, if_pos hall]

lemma colon_not_digit_mem (cs : List Char) (hall : cs.all isDigitChar = true) :
    ':' ∉ cs := by
  intro hc
  have h2 := List.all_eq_true.mp hall ':' hc
  exact absurd h2 (by decide)

lemma splitOnChar_ne_nil (sep : Char) (cs : List Char) : splitOnChar sep cs ≠ [] := by
  cases cs with
  | nil => simp [splitOnChar]
  | cons c rest =>
    rw [splitOnChar]
    by_cases h : c = sep
    · simp [h]
    · rw [if_neg h]
      rcases htail : splitOnChar sep rest with _ | ⟨t, ts⟩ <;> simp

lemma splitOnChar_of_not_mem (sep : Char) (a : List Char) (ha : sep ∉ a) :
    splitOnChar sep a = [a] := by
  induction a with
  | nil => rfl
  | cons c rest ih =>
    have hc : c ≠ sep := fun h => ha (h ▸ List.mem_cons_self _ _)
    have hrest : sep ∉ rest := fun h => ha (List.mem_cons_of_mem _ h)
    rw [splitOnChar, if_neg hc, ih hrest]

lemma splitOnChar_append_sep (sep : Char) (a b : List Char) (ha : sep ∉ a) :
    splitOnChar sep (a ++ sep :: b) = a :: splitOnChar sep b := by
  induction a with
  | nil => simp [splitOnChar]
  | cons c rest ih =>
    have hc : c ≠ sep := fun h => ha (h ▸ List.mem_cons_self _ _)
    have hrest : sep ∉ rest := fun h => ha (List.mem_cons_of_mem _ h)
    rw [List.cons_append, splitOnChar, if_neg hc, ih hrest]

/-!  ## C8: malformed time handling -/

/-- C8 counterexample: the out-of-range time string `"25:00"` is parsed as
`25 * 60 + 0 = 1500` minutes by `getMinutes`; it does not fall back to the
slot default `3 * 60 = 180` as the claim states. -/
theorem claim_C8_counterexample :
    getMinutes 3 (some ("25:00")) = some 1500
    ∧ getMinutes 3 (some ("25:00")) ≠ some ((3 : ℤ) * 60) := by
  constructor
  · rfl
  · intro h
    simp [show ((3 : ℤ) * 60) = 180 by norm_num] at h
    have : (1500 : ℤ) = 180 := by
      have h1 : getMinutes 3 (some ("25:00")) = some 1500 := rfl
      rw [h1] at h
      exact Option.some_injective _ h
    norm_num at this

/-- C8 amended: a time string that is absent or missing a colon falls back
to the slot's top-of-hour default `hourSlot * 60` (and `getMins` in
`App.tsx` likewise falls back, to `0`); but a string containing a colon is
parsed as `h * 60 + m` even when the hour or minute is out of range — no
range check is applied and no error is raised. -/
theorem claim_C8_amended_fallback (slotIndex : ℕ) (s : String) :
    (containsColon s = false → getMinutes slotIndex (some s) = some ((slotIndex : ℤ) * 60))
    ∧ getMinutes slotIndex none = some ((slotIndex : ℤ) * 60)
    ∧ (containsColon s = false → getMins s = some 0)
    ∧ (∀ h m : ℕ,
        getMinutes slotIndex
          (some (String.mk (natToDigits h ++ ':' :: natToDigits m))) =
          some ((h : ℤ) * 60 + m)) := by
  refine ⟨?_, rfl, ?_, ?_⟩
  · intro hc
    rw [getMinutes]
    rw [if_neg (by simp [hc])]
  · intro hc
    rw [getMins]
    by_cases hemp : s.data.isEmpty
    · rw [if_pos (Or.inl hemp)]
    · rw [if_pos (Or.inr (by simp [hc]))]
  · intro h m
    obtain ⟨ha1, ha2, ha3⟩ := natToDigits_spec h
    obtain ⟨hb1, hb2, hb3⟩ := natToDigits_spec m
    have hnotmemh : ':' ∉ natToDigits h := colon_not_digit_mem _ ha1
    have hnotmemm : ':' ∉ natToDigits m := colon_not_digit_mem _ hb1
    have hdata : (String.mk (natToDigits h ++ ':' :: natToDigits m)).data =
        natToDigits h ++ ':' :: natToDigits m := rfl
    have hconc : containsColon (String.mk (natToDigits h ++ ':' :: natToDigits m)) = true := by
      simp [containsColon, hdata]
    have hne : ¬ (String.mk (natToDigits h ++ ':' :: natToDigits m)).data.isEmpty := by
      rw [hdata]
      rcases hh : natToDigits h with _ | ⟨c, cs⟩
      · exact absurd hh ha2
      · simp
    rw [getMinutes, if_pos ⟨hne, hconc⟩]
    rw [hdata, splitOnChar_append_sep ':' _ _ hnotmemh,
      splitOnChar_of_not_mem ':' _ hnotmemm]
    simp only [List.getD_cons_zero, List.getD_cons_succ]
    rw [jsNumber_of_digits _ ha2 ha1, jsNumber_of_digits _ hb2 hb1, ha3, hb3]
    simp [jnAdd]

/-- C8 amended witness: slot 3 with the colon-free string `"2500"` falls
back to 180 minutes, while `"25:00"` parses to 1500 minutes. -/
theorem claim_C8_amended_fallback_witness :
    getMinutes 3 (some ("2500")) = some ((3 : ℤ) * 60)
    ∧ getMinutes 3 (some (String.mk (natToDigits 25 ++ ':' :: natToDigits 0))) =
        some ((25 : ℤ) * 60 + 0) :=
  ⟨(claim_C8_amended_fallback 3 "2500").1 (by decide),
   (claim_C8_amended_fallback 3 "2500").2.2.2 25 0⟩

/-!  ## C7: synergy score

No synergy-score code is present under `src/`; the definition below is
modelled from the spec. -/

/-- Modelled from the spec: `getTwoWaySummary`'s aggregate synergy score,
`synergyScore = sqrt(inboundVolume × outboundVolume) ×
(1 + min(in,out)/max(in,out))`, with division by zero yielding 0 (the
spec's division-by-zero rule; Lean's real division returns 0 there). -/
noncomputable def synergyScore (inV outV : ℕ) : ℝ :=
  Real.sqrt ((inV : ℝ) * (outV : ℝ)) *
    (1 + ((min inV outV : ℕ) : ℝ) / ((max inV outV : ℕ) : ℝ))

/-- C7: a balanced port scores strictly higher than a one-directional port
carrying the same total volume; in particular `in = out = 10` beats
`in = 20, out = 0`. -/
theorem claim_C7_synergy_balance :
    (∀ v : ℕ, 0 < v → synergyScore v v > synergyScore (2 * v) 0)
    ∧ synergyScore 10 10 > synergyScore 20 0 := by
  have hzero : ∀ w : ℕ, synergyScore w 0 = 0 := by
    intro w
    unfold synergyScore
    simp
  have hbal : ∀ v : ℕ, 0 < v → synergyScore v v = 2 * v := by
    intro v hv
    unfold synergyScore
    have hv0 : (0 : ℝ) ≤ (v : ℝ) := by positivity
    have hvne : ((v : ℕ) : ℝ) ≠ 0 := by
      simp only [ne_eq, Nat.cast_eq_zero]
      omega
    rw [min_self, max_self, div_self hvne, Real.sqrt_mul_self hv0]
    ring
  have hmain : ∀ v : ℕ, 0 < v → synergyScore v v > synergyScore (2 * v) 0 := by
    intro v hv
    rw [hzero, hbal v hv]
    have : (0 : ℝ) < (v : ℝ) := by exact_mod_cast hv
    linarith
  refine ⟨hmain, ?_⟩
  have h10 := hmain 10 (by norm_num)
  have heq : (2 * 10 : ℕ) = 20 := by norm_num
  rw [heq] at h10
  exact h10

/-- C7 witness: the balance inequality at the concrete volume 3. -/
theorem claim_C7_synergy_balance_witness :
    synergyScore 3 3 > synergyScore (2 * 3) 0 :=
  claim_C7_synergy_balance.1 3 (by decide)

/-!  ## Manual block store (`App.tsx`)

`manualBlocks` is a JS object keyed by dataset id, each value an object
keyed by hour holding `{ arrivals, departures }`.  JS objects enumerate
integer-like keys in ascending order and string keys in insertion order;
the embedding keeps a slot map as an association list sorted by key, with
the `NaN` bucket key (`none`) last, and the outer store as an association
list in insertion order.  JS object keys are unique, so updates replace
the first (only) occurrence. -/

/-- One hour bucket of the manual store. -/
structure SlotEntry where
  arrivals : List FlightInfo := []
  departures : List FlightInfo := []
deriving DecidableEq, Repr, Inhabited

/-- A slot key: an hour number, or `none` for the `NaN` key produced by
`parseInt` on a garbage time. -/
abbrev SlotKey := Option ℤ

/-- A per-dataset manual store. -/
abbrev SlotMap := List (SlotKey × SlotEntry)

/-- The whole `manualBlocks` record, keyed by dataset id. -/
abbrev Blocks := List (String × SlotMap)

/-- Imported CSV rows as produced by `parseCSVData` in `App.tsx` (only the
fields the embedded functions read). -/
structure Row where
  arrivalAirline : Option String := none
  arrivalFlightNo : Option String := none
  arrivalCode : Option String := none
  arrivalFreq : ℤ := 0
  arrivalSeats : ℤ := 0
  arrivalPax : ℤ := 0
  hub_time : String := ""
  departureCode : Option String := none
  departureFreq : ℤ := 0
  departureSeats : ℤ := 0
  departurePax : ℤ := 0
  departureFlightNo : Option String := none
  departureAirline : Option String := none
deriving DecidableEq, Repr, Inhabited

/-- `AirportDataset` from `types.ts`. -/
structure AirportDataset where
  id : String := ""
  code : String := ""
  fileName : String := ""
  data : List Row := []
deriving DecidableEq, Repr, Inhabited

/-- Append a flight to one direction list of an entry (JS `push`). -/
def entryPush (e : SlotEntry) (t : Dir) (f : FlightInfo) : SlotEntry :=
  match t with
  | .arr => { e with arrivals := e.arrivals ++ [f] }
  | .dep => { e with departures := e.departures ++ [f] }

/-- A fresh entry holding one flight. -/
def entryOf (t : Dir) (f : FlightInfo) : SlotEntry := entryPush {} t f

/-- Ordering of slot keys as JS enumerates object keys: hour keys
ascending, the `NaN` key after all of them. -/
def keyLt : SlotKey → SlotKey → Bool
  | some x, some y => x < y
  | some _, none => true
  | none, _ => false

/-- `if (!blocks[hour]) blocks[hour] = { arrivals: [], departures: [] }`
followed by a `push`, on the sorted association list. -/
def pushInto : SlotMap → SlotKey → Dir → FlightInfo → SlotMap
  | [], k, t, f => [(k, entryOf t f)]
  | (k', e) :: rest, k, t, f =>
    if k = k' then (k', entryPush e t f) :: rest
    else if keyLt k k' then (k, entryOf t f) :: (k', e) :: rest
    else (k', e) :: pushInto rest k t f

/-- The tagged flights of one entry: arrivals before departures. -/
def entryFlights (e : SlotEntry) : List (Dir × FlightInfo) :=
  e.arrivals.map (fun f => (Dir.arr, f)) ++ e.departures.map (fun f => (Dir.dep, f))

/-- `allManualFlights`: every flight of the store in enumeration order. -/
def enumSlots : SlotMap → List (Dir × FlightInfo)
  | [] => []
  | (_, e) :: rest => entryFlights e ++ enumSlots rest

/-- Property lookup `m[k]`. -/
def lookupSlot : SlotMap → SlotKey → Option SlotEntry
  | [], _ => none
  | (k', e) :: rest, k => if k' = k then some e else lookupSlot rest k

/-- The flights stored in one bucket and direction (empty when absent). -/
def slotFlights (m : SlotMap) (k : SlotKey) (t : Dir) : List FlightInfo :=
  match lookupSlot m k with
  | none => []
  | some e => match t with | .arr => e.arrivals | .dep => e.departures

/-- Property lookup `blocks[id]`. -/
def lookupBlocks : Blocks → String → Option SlotMap
  | [], _ => none
  | (d', m) :: rest, d => if d' = d then some m else lookupBlocks rest d

/-- Observable content of the whole store: the flights of dataset `d`,
bucket `k`, direction `t`. -/
def flightsAt (bs : Blocks) (d : String) (k : SlotKey) (t : Dir) : List FlightInfo :=
  slotFlights ((lookupBlocks bs d).getD []) k t

/-- Property assignment `blocks[id] = m` (keys are unique, so replacing
the first occurrence is faithful; a new key is appended in insertion
order). -/
def setBlocks : Blocks → String → SlotMap → Blocks
  | [], d, m => [(d, m)]
  | (d', e) :: rest, d, m =>
    if d' = d then (d, m) :: rest else (d', e) :: setBlocks rest d m

/-!  ## Anchor sync engine (`App.tsx`, `syncReciprocalUpdate`)

The fresh id `Math.random().toString(36).substr(2, 9)` for a newly created
sync flight is an explicit `freshId` parameter. -/

/-- `focalBlock.code.split(' ')[0].toUpperCase()`. -/
def airportPartOf (focal : FlightInfo) : String :=
  toUpperJS (String.mk ((splitOnChar ' ' focal.code.data).getD 0 []))

/-- `focalBlock.airline || (parts.length > 1 ? parts[1] : undefined)`. -/
def airlineOfFocal (focal : FlightInfo) : Option String :=
  let parts := splitOnChar ' ' focal.code.data
  jsOrStr focal.airline
    (if parts.length > 1 then some (String.mk (parts.getD 1 [])) else none)

/-- The match test collecting `matchingFIDs`: reciprocal direction, port
prefix match, and airline match. -/
def isReciprocalMatch (sourceHubCode : String) (airline : Option String)
    (reciprocalType : Dir) (p : Dir × FlightInfo) : Bool :=
  decide (p.1 = reciprocalType)
  && startsWithJS (toUpperJS p.2.code) sourceHubCode
  && (jsFalsyStr airline || decide (p.2.airline = airline)
      || includesJS (toUpperJS p.2.code) (toUpperJS (airline.getD "")))

/-- The CSV search of the no-link branch:
`row[typeKey + "Code"]?.toUpperCase() === sourceHubCode` and the airline
containment test (an absent row field fails the test via optional
chaining). -/
def csvRowMatches (sourceHubCode : String) (airline : Option String)
    (reciprocalType : Dir) (row : Row) : Bool :=
  let rcode := match reciprocalType with | .arr => row.arrivalCode | .dep => row.departureCode
  let rair := match reciprocalType with | .arr => row.arrivalAirline | .dep => row.departureAirline
  (match rcode with
   | some c => decide (toUpperJS c = sourceHubCode)
   | none => false)
  && (jsFalsyStr airline ||
      (match rair with
       | some a => includesJS (toUpperJS a) (toUpperJS (airline.getD ""))
       | none => false))

/-- Retiming of a linked manual flight: its own anchor
(`f.originalHubTime || f.exactTime || "00:00"`) plus the focal delta. -/
def syncRetime (absoluteDelta : JSNum) (f : FlightInfo) : FlightInfo :=
  let anchor := jsOrStr (jsOrStr f.originalHubTime f.exactTime) (some ("00:00"))
  { f with exactTime := some (minsToTime (jnAdd (getMins (anchor.getD "")) absoluteDelta)) }

/-- The re-bucketing loop body: read the flight's displayed hour with
`parseInt(f.exactTime!.split(':')[0])` and push it.  An absent
`exactTime` makes the JS code throw; the embedding returns `none`. -/
def bucketFold : SlotMap → List (Dir × FlightInfo) → Option SlotMap
  | m, [] => some m
  | m, p :: rest =>
    (p.2.exactTime).bind (fun s => bucketFold (pushInto m (jsHourOf s) p.1 p.2) rest)

/-- The focal delta
`getMins(focalBlock.exactTime) - getMins(focalBlock.originalHubTime)`. -/
def syncDelta (focalBlock : FlightInfo) : JSNum :=
  jnSub (getMins (focalBlock.exactTime.getD ""))
    (getMins (focalBlock.originalHubTime.getD ""))

/-- `newBlocks[targetDataset.id] || {}`. -/
def targetStore (newBlocks : Blocks) (targetDataset : AirportDataset) : SlotMap :=
  (lookupBlocks newBlocks targetDataset.id).getD []

/-- The collected `matchingFIDs` of the sync engine. -/
def matchingIdsOf (sourceHubCode : String) (airline : Option String)
    (reciprocalType : Dir) (m : SlotMap) : List (Option String) :=
  ((enumSlots m).filter
    (isReciprocalMatch sourceHubCode airline reciprocalType)).map (fun p => p.2.id)

/-- The freshly created sync flight of the no-link branch. -/
def mkSyncFlight (sourceHubCode : String) (airline : Option String)
    (focalBlock : FlightInfo) (freshId : String) (row : Row) : FlightInfo :=
  { id := some freshId
    code := sourceHubCode ++
      (if jsFalsyStr airline then "" else " " ++ airline.getD "") ++ " SYNC"
    airline := airline
    freq := focalBlock.freq
    region := airportRegions sourceHubCode
    isManual := true
    exactTime := some (minsToTime (jnAdd (getMins row.hub_time) (syncDelta focalBlock)))
    originalHubTime := some row.hub_time }

/-- `syncReciprocalUpdate` from `App.tsx`: propagate a manual edit of
`focalBlock` at the hub `sourceHubCode` to the reciprocal hub's manual
store.  Returns `none` when the JS code would throw.  The source's local
consts (`airline`, `absoluteDelta`, `allManualFlights`, …) are inlined
through the helper definitions above; the computation is unchanged. -/
def syncReciprocalUpdate (datasets : List AirportDataset) (newBlocks : Blocks)
    (sourceHubCode : String) (focalBlock : FlightInfo) (ty : Dir)
    (freshId : String) : Option Blocks :=
  match datasets.find? (fun d => d.code = airportPartOf focalBlock) with
  | none => some newBlocks
  | some targetDataset =>
    if jsFalsyStr focalBlock.originalHubTime || jsFalsyStr focalBlock.exactTime then
      some newBlocks
    else
      if ¬ (matchingIdsOf sourceHubCode (airlineOfFocal focalBlock) ty.flip
          (targetStore newBlocks targetDataset)).isEmpty then
        (bucketFold [] ((enumSlots (targetStore newBlocks targetDataset)).map (fun p =>
          (p.1, if (matchingIdsOf sourceHubCode (airlineOfFocal focalBlock) ty.flip
                (targetStore newBlocks targetDataset)).contains p.2.id then
              syncRetime (syncDelta focalBlock) p.2
            else p.2)))).map
          (fun updated => setBlocks newBlocks targetDataset.id updated)
      else
        match targetDataset.data.find?
            (csvRowMatches sourceHubCode (airlineOfFocal focalBlock) ty.flip) with
        | none =>
          (bucketFold [] (enumSlots (targetStore newBlocks targetDataset))).map
            (fun carried => setBlocks newBlocks targetDataset.id carried)
        | some row =>
          (bucketFold [] (enumSlots (targetStore newBlocks targetDataset))).map
            (fun carried => setBlocks newBlocks targetDataset.id
              (pushInto carried
                (jsHourOf (minsToTime (jnAdd (getMins row.hub_time)
                  (syncDelta focalBlock))))
                ty.flip
                (mkSyncFlight sourceHubCode (airlineOfFocal focalBlock) focalBlock
                  freshId row)))

/-- Mutation of one slot entry when the bucket exists (models the
`if (airportBlocks[fromSlot]) { ... }` guard: no bucket, no change). -/
def updateSlotEntry : SlotMap → SlotKey → (SlotEntry → SlotEntry) → SlotMap
  | [], _, _ => []
  | (k', e) :: rest, k, f =>
    if k' = k then (k, f e) :: rest else (k', e) :: updateSlotEntry rest k f

/-- `handleTrashDrop` from `App.tsx`: remove the block with `blockId`
from the given slot and direction of the active dataset's manual store. -/
def handleTrashDrop (manualBlocks : Blocks) (activeId : String)
    (blockId : String) (fromSlot : ℤ) (ty : Dir) : Blocks :=
  let airportBlocks := (lookupBlocks manualBlocks activeId).getD []
  let updated := updateSlotEntry airportBlocks (some fromSlot) (fun e =>
    match ty with
    | .arr => { e with arrivals := e.arrivals.filter (fun b => ¬ b.id = some blockId) }
    | .dep => { e with departures := e.departures.filter (fun b => ¬ b.id = some blockId) })
  setBlocks manualBlocks activeId updated

lemma lookupBlocks_setBlocks (bs : Blocks) (d : String) (m : SlotMap) (d' : String) :
    lookupBlocks (setBlocks bs d m) d' =
      if d' = d then some m else lookupBlocks bs d' := by
  induction bs with
  | nil =>
    simp only [setBlocks, lookupBlocks]
    by_cases h : d' = d
    · subst h; simp
    · rw [if_neg h, if_neg (fun hc => h hc.symm)]
  | cons hd rest ih =>
    obtain ⟨d0, m0⟩ := hd
    simp only [setBlocks]
    by_cases h0 : d0 = d
    · subst h0
      simp only [if_pos rfl, lookupBlocks]
      by_cases h' : d' = d0
      · subst h'; simp
      · rw [if_neg (fun hc => h' hc.symm), if_neg h', if_neg (fun hc => h' hc.symm)]
    · rw [if_neg h0]
      simp only [lookupBlocks]
      by_cases h1 : d0 = d'
      · subst h1
        rw [if_pos rfl, if_neg h0, if_pos rfl]
      · rw [if_neg h1, ih]
        by_cases h2 : d' = d
        · rw [if_pos h2, if_pos h2]
        · rw [if_neg h2, if_neg h2, if_neg h1]

lemma lookupSlot_updateSlotEntry (m : SlotMap) (k : SlotKey) (f : SlotEntry → SlotEntry)
    (k' : SlotKey) :
    lookupSlot (updateSlotEntry m k f) k' =
      if k' = k then (lookupSlot m k).map f else lookupSlot m k' := by
  induction m with
  | nil =>
    simp only [updateSlotEntry, lookupSlot]
    by_cases h : k' = k <;> simp [h]
  | cons hd rest ih =>
    obtain ⟨k0, e0⟩ := hd
    simp only [updateSlotEntry]
    by_cases h0 : k0 = k
    · subst h0
      simp only [if_pos rfl, lookupSlot]
      by_cases h' : k' = k0
      · subst h'; simp
      · rw [if_neg (fun hc => h' hc.symm), if_neg h', if_neg (fun hc => h' hc.symm)]
    · rw [if_neg h0]
      simp only [lookupSlot]
      by_cases h1 : k0 = k'
      · subst h1
        rw [if_pos rfl, if_neg h0, if_pos rfl]
      · rw [if_neg h1, ih]
        by_cases h2 : k' = k
        · rw [if_pos h2, if_pos h2, if_neg h0]
        · rw [if_neg h2, if_neg h2, if_neg h1]

/-- C10: a manual delete removes exactly the records with the given id
from the one slot-and-direction list of the active hub's manual store;
every other slot, the opposite direction, and every other hub's store are
unchanged, and no reciprocal propagation is triggered. -/
theorem claim_C10_trash_drop_frame (manualBlocks : Blocks)
    (activeId blockId : String) (fromSlot : ℤ) (ty : Dir)
    (d : String) (k : SlotKey) (t : Dir) :
    flightsAt (handleTrashDrop manualBlocks activeId blockId fromSlot ty) d k t =
      if d = activeId ∧ k = some fromSlot ∧ t = ty then
        (flightsAt manualBlocks d k t).filter (fun b => ¬ b.id = some blockId)
      else flightsAt manualBlocks d k t := by
  unfold handleTrashDrop flightsAt
  rw [lookupBlocks_setBlocks]
  by_cases hd : d = activeId
  · rw [if_pos hd, hd]
    simp only [Option.getD_some]
    unfold slotFlights
    rw [lookupSlot_updateSlotEntry]
    by_cases hk : k = some fromSlot
    · rw [if_pos hk, hk]
      rcases hls : lookupSlot ((lookupBlocks manualBlocks activeId).getD []) (some fromSlot) with
        _ | e
      · simp
      · simp only [Option.map_some]
        cases ty <;> cases t <;> simp
    · rw [if_neg hk]
      rw [if_neg (fun hc => hk hc.2.1)]
  · rw [if_neg hd]
    have : ¬ (d = activeId ∧ k = some fromSlot ∧ t = ty) := by
      intro hc; exact hd hc.1
    rw [if_neg this]

/-!  ### Store re-bucketing lemmas -/

lemma keyLt_irrefl (k : SlotKey) : keyLt k k = false := by
  cases k <;> simp [keyLt]

set_option linter.unnecessarySeqFocus false in
lemma keyLt_asymm (a b : SlotKey) (h : keyLt a b = true) : keyLt b a = false := by
  cases a <;> cases b <;> simp_all [keyLt] <;> omega

lemma entryFlights_entryPush (e : SlotEntry) (t : Dir) (f : FlightInfo) :
    List.Perm (entryFlights (entryPush e t f)) ((t, f) :: entryFlights e) := by
  cases t
  · show List.Perm ((e.arrivals ++ [f]).map (fun f => (Dir.arr, f)) ++
      e.departures.map (fun f => (Dir.dep, f))) _
    rw [List.map_append]
    simp only [List.map_cons, List.map_nil]
    rw [List.append_assoc]
    exact List.perm_middle
  · show List.Perm (e.arrivals.map (fun f => (Dir.arr, f)) ++
      (e.departures ++ [f]).map (fun f => (Dir.dep, f))) _
    rw [List.map_append]
    simp only [List.map_cons, List.map_nil]
    rw [← List.append_assoc]
    have h1 := @List.perm_middle _ (Dir.dep, f)
      (e.arrivals.map (fun f => (Dir.arr, f)) ++
        e.departures.map (fun f => (Dir.dep, f))) []
    simpa using h1

lemma enumSlots_pushInto (m : SlotMap) (k : SlotKey) (t : Dir) (f : FlightInfo) :
    List.Perm (enumSlots (pushInto m k t f)) ((t, f) :: enumSlots m) := by
  induction m with
  | nil =>
    show List.Perm (entryFlights (entryOf t f) ++ []) ((t, f) :: enumSlots [])
    rw [List.append_nil]
    unfold entryOf
    exact entryFlights_entryPush {} t f
  | cons hd rest ih =>
    obtain ⟨k', e⟩ := hd
    by_cases hk : k = k'
    · rw [pushInto, if_pos hk]
      show List.Perm (entryFlights (entryPush e t f) ++ enumSlots rest)
        ((t, f) :: (entryFlights e ++ enumSlots rest))
      exact (entryFlights_entryPush e t f).append_right _
    · rw [pushInto, if_neg hk]
      by_cases hlt : keyLt k k' = true
      · rw [if_pos hlt]
        show List.Perm (entryFlights (entryOf t f) ++ (entryFlights e ++ enumSlots rest))
          ((t, f) :: enumSlots ((k', e) :: rest))
        unfold entryOf
        exact (entryFlights_entryPush {} t f).append_right
          (entryFlights e ++ enumSlots rest)
      · rw [if_neg hlt]
        show List.Perm (entryFlights e ++ enumSlots (pushInto rest k t f))
          ((t, f) :: (entryFlights e ++ enumSlots rest))
        exact (ih.append_left _).trans List.perm_middle

lemma bucketFold_some_perm (xs : List (Dir × FlightInfo)) :
    ∀ m₀ : SlotMap, (∀ p ∈ xs, p.2.exactTime ≠ none) →
    ∃ m', bucketFold m₀ xs = some m'
      ∧ List.Perm (enumSlots m') (enumSlots m₀ ++ xs) := by
  induction xs with
  | nil => intro m₀ _; exact ⟨m₀, rfl, by simp⟩
  | cons p rest ih =>
    intro m₀ hall
    rcases hex : p.2.exactTime with _ | s
    · exact absurd hex (hall p (List.mem_cons_self _ _))
    · rw [bucketFold, hex, Option.some_bind]
      obtain ⟨m', hm', hperm⟩ :=
        ih (pushInto m₀ (jsHourOf s) p.1 p.2) (fun q hq => hall q (List.mem_cons_of_mem _ hq))
      refine ⟨m', hm', ?_⟩
      have h2 := (enumSlots_pushInto m₀ (jsHourOf s) p.1 p.2).append_right rest
      have h3 : List.Perm ((p.1, p.2) :: (enumSlots m₀ ++ rest))
          (enumSlots m₀ ++ (p.1, p.2) :: rest) := List.perm_middle.symm
      exact hperm.trans (h2.trans h3)

lemma bucketFold_append (xs ys : List (Dir × FlightInfo)) :
    ∀ m₀ : SlotMap, bucketFold m₀ (xs ++ ys) =
      (bucketFold m₀ xs).bind (fun m1 => bucketFold m1 ys) := by
  induction xs with
  | nil => intro m₀; rfl
  | cons p rest ih =>
    intro m₀
    rcases hex : p.2.exactTime with _ | s
    · rw [List.cons_append, bucketFold, hex, bucketFold, hex]
      rfl
    · rw [List.cons_append, bucketFold, hex, Option.some_bind, bucketFold, hex,
        Option.some_bind, ih]

lemma pushInto_head_lt (k : SlotKey) (e : SlotEntry) (m₀ : SlotMap)
    (h : SlotKey) (t : Dir) (f : FlightInfo) (hlt : keyLt k h = true) :
    pushInto ((k, e) :: m₀) h t f = (k, e) :: pushInto m₀ h t f := by
  rw [pushInto]
  have hne : ¬ h = k := by
    intro hc; subst hc; rw [keyLt_irrefl] at hlt; exact absurd hlt (by simp)
  rw [if_neg hne, if_neg (by rw [keyLt_asymm k h hlt]; simp)]

lemma bucketFold_head_lt (fs : List (Dir × FlightInfo)) :
    ∀ (k : SlotKey) (e : SlotEntry) (m₀ : SlotMap),
    (∀ p ∈ fs, ∃ s, p.2.exactTime = some s ∧ keyLt k (jsHourOf s) = true) →
    bucketFold ((k, e) :: m₀) fs = (bucketFold m₀ fs).map (fun m' => (k, e) :: m') := by
  induction fs with
  | nil => intro k e m₀ _; rfl
  | cons p rest ih =>
    intro k e m₀ hall
    obtain ⟨s, hex, hlt⟩ := hall p (List.mem_cons_self _ _)
    simp only [bucketFold, hex, Option.some_bind]
    rw [pushInto_head_lt _ _ _ _ _ _ hlt]
    exact ih k e _ (fun q hq => hall q (List.mem_cons_of_mem _ hq))

lemma bucketFold_same_key (fs : List (Dir × FlightInfo)) :
    ∀ (k : SlotKey) (e : SlotEntry),
    (∀ p ∈ fs, ∃ s, p.2.exactTime = some s ∧ jsHourOf s = k) →
    bucketFold [(k, e)] fs =
      some [(k, fs.foldl (fun acc p => entryPush acc p.1 p.2) e)] := by
  induction fs with
  | nil => intro k e _; rfl
  | cons p rest ih =>
    intro k e hall
    obtain ⟨s, hex, hk⟩ := hall p (List.mem_cons_self _ _)
    simp only [bucketFold, hex, Option.some_bind]
    rw [List.foldl_cons]
    have hpush : pushInto [(k, e)] (jsHourOf s) p.1 p.2 = [(k, entryPush e p.1 p.2)] := by
      rw [hk, pushInto, if_pos rfl]
    rw [hpush]
    exact ih k (entryPush e p.1 p.2) (fun q hq => hall q (List.mem_cons_of_mem _ hq))

lemma foldl_entryPush_arr (l : List FlightInfo) :
    ∀ acc : SlotEntry,
    (l.map (fun f => (Dir.arr, f))).foldl (fun acc p => entryPush acc p.1 p.2) acc =
      { acc with arrivals := acc.arrivals ++ l } := by
  induction l with
  | nil => intro acc; simp
  | cons f rest ih =>
    intro acc
    rw [List.map_cons, List.foldl_cons, ih]
    simp [entryPush]

lemma foldl_entryPush_dep (l : List FlightInfo) :
    ∀ acc : SlotEntry,
    (l.map (fun f => (Dir.dep, f))).foldl (fun acc p => entryPush acc p.1 p.2) acc =
      { acc with departures := acc.departures ++ l } := by
  induction l with
  | nil => intro acc; simp
  | cons f rest ih =>
    intro acc
    rw [List.map_cons, List.foldl_cons, ih]
    simp [entryPush]

lemma entryFlights_foldl (e : SlotEntry) :
    (entryFlights e).foldl (fun acc p => entryPush acc p.1 p.2) ({} : SlotEntry) = e := by
  unfold entryFlights
  rw [List.foldl_append, foldl_entryPush_arr, foldl_entryPush_dep]
  simp

lemma entryFlights_eq_nil (e : SlotEntry) :
    entryFlights e = [] ↔ e.arrivals = [] ∧ e.departures = [] := by
  unfold entryFlights
  simp

lemma bucketFold_entry (k : SlotKey) (e : SlotEntry)
    (hwf : ∀ p ∈ entryFlights e, ∃ s, p.2.exactTime = some s ∧ jsHourOf s = k) :
    bucketFold [] (entryFlights e) =
      some (if entryFlights e = [] then [] else [(k, e)]) := by
  rcases hef : entryFlights e with _ | ⟨p, rest⟩
  · simp [bucketFold]
  · rw [if_neg (by simp)]
    have hp := hwf p (by rw [hef]; exact List.mem_cons_self _ _)
    obtain ⟨s, hex, hk⟩ := hp
    simp only [bucketFold, hex, Option.some_bind]
    have hpush : pushInto [] (jsHourOf s) p.1 p.2 = [(k, entryOf p.1 p.2)] := by
      rw [hk]; rfl
    rw [hpush]
    rw [bucketFold_same_key rest k (entryOf p.1 p.2)
      (fun q hq => hwf q (by rw [hef]; exact List.mem_cons_of_mem _ hq))]
    have : rest.foldl (fun acc p => entryPush acc p.1 p.2) (entryOf p.1 p.2) = e := by
      have h1 := entryFlights_foldl e
      rw [hef, List.foldl_cons] at h1
      exact h1
    rw [this]

lemma enumSlots_mem_source (m : SlotMap) (p : Dir × FlightInfo)
    (hp : p ∈ enumSlots m) : ∃ ke ∈ m, p ∈ entryFlights ke.2 := by
  induction m with
  | nil => simp [enumSlots] at hp
  | cons hd rest ih =>
    rw [enumSlots] at hp
    rcases List.mem_append.mp hp with hp | hp
    · exact ⟨hd, List.mem_cons_self _ _, hp⟩
    · obtain ⟨ke, hke, hmem⟩ := ih hp
      exact ⟨ke, List.mem_cons_of_mem _ hke, hmem⟩

lemma lookupSlot_none_of_all_lt (m : SlotMap) (k : SlotKey)
    (h : ∀ ke ∈ m, keyLt k ke.1 = true) : lookupSlot m k = none := by
  induction m with
  | nil => rfl
  | cons hd rest ih =>
    obtain ⟨k0, e0⟩ := hd
    rw [lookupSlot]
    have hlt := h (k0, e0) (List.mem_cons_self _ _)
    have hne : ¬ k0 = k := by
      intro hc; subst hc; rw [keyLt_irrefl] at hlt; exact absurd hlt (by simp)
    rw [if_neg hne]
    exact ih (fun ke hke => h ke (List.mem_cons_of_mem _ hke))

/-- Well-formedness of a manual slot map: keys strictly ascending (as the
JS object enumerates them) and every flight bucketed under the hour of
its own `exactTime`. -/
def SlotMapWF (m : SlotMap) : Prop :=
  List.Pairwise (fun a b => keyLt a.1 b.1 = true) m
  ∧ ∀ ke ∈ m, ∀ p ∈ entryFlights ke.2, ∃ s, p.2.exactTime = some s ∧ jsHourOf s = ke.1

/-- Re-bucketing a well-formed store reproduces its observable content
(empty buckets may be dropped, which no lookup can observe). -/
lemma rebuild_carry (m : SlotMap) (hwf : SlotMapWF m) :
    ∃ m', bucketFold [] (enumSlots m) = some m'
      ∧ ∀ (k : SlotKey) (t : Dir), slotFlights m' k t = slotFlights m k t := by
  obtain ⟨hsort, hentries⟩ := hwf
  induction m with
  | nil => exact ⟨[], rfl, fun k t => rfl⟩
  | cons hd rest ih =>
    obtain ⟨k, e⟩ := hd
    rw [List.pairwise_cons] at hsort
    obtain ⟨hlt, hsrest⟩ := hsort
    have he : ∀ p ∈ entryFlights e, ∃ s, p.2.exactTime = some s ∧ jsHourOf s = k :=
      fun p hp => hentries (k, e) (List.mem_cons_self _ _) p hp
    have hrest : ∀ ke ∈ rest, ∀ p ∈ entryFlights ke.2,
        ∃ s, p.2.exactTime = some s ∧ jsHourOf s = ke.1 :=
      fun ke hke p hp => hentries ke (List.mem_cons_of_mem _ hke) p hp
    obtain ⟨m'', hm'', hflights⟩ := ih hsrest hrest
    rw [enumSlots, bucketFold_append, bucketFold_entry k e he]
    by_cases hef : entryFlights e = []
    · rw [if_pos hef]
      rw [Option.some_bind]
      refine ⟨m'', hm'', ?_⟩
      intro k' t
      rw [hflights]
      by_cases hk : k = k'
      · subst hk
        have h1 : slotFlights rest k t = [] := by
          unfold slotFlights
          rw [lookupSlot_none_of_all_lt rest k (fun ke hke => hlt ke hke)]
        have h2 : slotFlights ((k, e) :: rest) k t = [] := by
          unfold slotFlights
          rw [show lookupSlot ((k, e) :: rest) k = some e from by
            rw [lookupSlot, if_pos rfl]]
          obtain ⟨ha, hd2⟩ := (entryFlights_eq_nil e).mp hef
          cases t
          · exact ha
          · exact hd2
        rw [h1, h2]
      · have h3 : lookupSlot ((k, e) :: rest) k' = lookupSlot rest k' := by
          rw [lookupSlot, if_neg hk]
        unfold slotFlights
        rw [h3]
    · rw [if_neg hef]
      rw [Option.some_bind]
      have hgt : ∀ p ∈ enumSlots rest,
          ∃ s, p.2.exactTime = some s ∧ keyLt k (jsHourOf s) = true := by
        intro p hp
        obtain ⟨ke, hke, hmem⟩ := enumSlots_mem_source rest p hp
        obtain ⟨s, hex, hhour⟩ := hrest ke hke p hmem
        exact ⟨s, hex, by rw [hhour]; exact hlt ke hke⟩
      rw [bucketFold_head_lt (enumSlots rest) k e [] hgt, hm'']
      refine ⟨(k, e) :: m'', rfl, ?_⟩
      intro k' t
      by_cases hk : k = k'
      · have l1 : lookupSlot ((k, e) :: m'') k' = some e := by
          rw [lookupSlot, if_pos hk]
        have l2 : lookupSlot ((k, e) :: rest) k' = some e := by
          rw [lookupSlot, if_pos hk]
        unfold slotFlights
        rw [l1, l2]
      · have l1 : lookupSlot ((k, e) :: m'') k' = lookupSlot m'' k' := by
          rw [lookupSlot, if_neg hk]
        have l2 : lookupSlot ((k, e) :: rest) k' = lookupSlot rest k' := by
          rw [lookupSlot, if_neg hk]
        unfold slotFlights
        rw [l1, l2]
        exact hflights k' t

lemma contains_iff_mem_list {α : Type} [BEq α] [LawfulBEq α] (l : List α) (a : α) :
    l.contains a = true ↔ a ∈ l := by
  show List.elem a l = true ↔ a ∈ l
  exact List.elem_iff

/-- Under distinct ids, membership of a flight's id in the collected
`matchingFIDs` is equivalent to the flight itself satisfying the match
predicate. -/
lemma matchingIds_contains_iff (l : List (Dir × FlightInfo))
    (pred : Dir × FlightInfo → Bool)
    (hids : (l.map (fun p => p.2.id)).Nodup)
    (p : Dir × FlightInfo) (hp : p ∈ l) :
    ((l.filter pred).map (fun q => q.2.id)).contains p.2.id = true ↔ pred p = true := by
  rw [contains_iff_mem_list]
  constructor
  · intro hmem
    rw [List.mem_map] at hmem
    obtain ⟨q, hq, hqid⟩ := hmem
    rw [List.mem_filter] at hq
    have hinj := List.inj_on_of_nodup_map hids
    have : q = p := hinj hq.1 hp hqid
    rw [← this]
    exact hq.2
  · intro hpred
    rw [List.mem_map]
    exact ⟨p, List.mem_filter.mpr ⟨hp, hpred⟩, rfl⟩

/-- Concrete sync example: the reciprocal hub dataset. -/
def cJED : AirportDataset := { id := "jedid", code := "JED" }

/-- Concrete sync example: the hub-B manual flight anchored at 14:00. -/
def cB0 : FlightInfo :=
  { id := some "b1"
    code := "BLR XY SYNC"
    airline := some "XY"
    freq := 1
    isManual := true
    exactTime := some "14:00"
    originalHubTime := some "14:00" }

/-- Concrete sync example: hub B's manual store. -/
def cBlocks0 : Blocks := [("jedid", [(some 14, { departures := [cB0] })])]

/-- Concrete sync example: the hub-A focal flight anchored at 10:00 and
retimed to 10:45. -/
def cFocal1 : FlightInfo :=
  { code := "JED"
    airline := some "XY"
    freq := 1
    isManual := true
    exactTime := some "10:45"
    originalHubTime := some "10:00" }

/-- Concrete sync example: the same focal flight re-retimed to 09:30. -/
def cFocal2 : FlightInfo := { cFocal1 with exactTime := some "09:30" }

/-- C3: on a manual retime the sync engine computes
`delta = currentTime − originalAnchorTime` of the focal flight and sets
every linked reciprocal manual flight's time to that flight's own anchor
plus delta (never the focal anchor plus delta), preserving its anchor and
all unlinked flights; consequently the propagation is path-independent: a
flight anchored at 10:00 retimed to 10:45 moves a hub-B counterpart
anchored at 14:00 to 14:45, and a subsequent retime to 09:30 moves it to
13:30 regardless of the intermediate state. -/
theorem claim_C3_sync_own_anchor :
    (∀ (datasets : List AirportDataset) (blocks : Blocks) (sourceHubCode : String)
        (focal : FlightInfo) (ty : Dir) (freshId : String) (target : AirportDataset),
      datasets.find? (fun d => d.code = airportPartOf focal) = some target →
      jsFalsyStr focal.originalHubTime = false →
      jsFalsyStr focal.exactTime = false →
      (∃ q ∈ enumSlots (targetStore blocks target),
        isReciprocalMatch sourceHubCode (airlineOfFocal focal) ty.flip q = true) →
      ((enumSlots (targetStore blocks target)).map (fun p => p.2.id)).Nodup →
      (∀ p ∈ enumSlots (targetStore blocks target), p.2.exactTime ≠ none) →
      ∃ blocks',
        syncReciprocalUpdate datasets blocks sourceHubCode focal ty freshId = some blocks'
        ∧ ∀ p ∈ enumSlots (targetStore blocks target),
          (isReciprocalMatch sourceHubCode (airlineOfFocal focal) ty.flip p = true →
            ∀ a : String, p.2.originalHubTime = some a → ¬ a.data.isEmpty →
              (p.1, { p.2 with exactTime := some (minsToTime (jnAdd (getMins a) (syncDelta focal))) })
                ∈ enumSlots (targetStore blocks' target))
          ∧ (isReciprocalMatch sourceHubCode (airlineOfFocal focal) ty.flip p = false →
              p ∈ enumSlots (targetStore blocks' target)))
    ∧ syncReciprocalUpdate [cJED] cBlocks0 "BLR" cFocal1 Dir.arr "n1"
        = some [("jedid", [(some 14,
            { departures := [{ cB0 with exactTime := some ("14:45") }] })])]
    ∧ syncReciprocalUpdate [cJED]
        [("jedid", [(some 14,
            { departures := [{ cB0 with exactTime := some ("14:45") }] })])]
        "BLR" cFocal2 Dir.arr "n2"
        = some [("jedid", [(some 13,
            { departures := [{ cB0 with exactTime := some ("13:30") }] })])]
    ∧ syncReciprocalUpdate [cJED] cBlocks0 "BLR" cFocal2 Dir.arr "n3"
        = some [("jedid", [(some 13,
            { departures := [{ cB0 with exactTime := some ("13:30") }] })])] := by
  refine ⟨?_, by decide, by decide, by decide⟩
  intro datasets blocks sourceHubCode focal ty freshId target hfind hanchor hexact
    hmatch hids htimes
  have hfne : ¬ (matchingIdsOf sourceHubCode (airlineOfFocal focal) ty.flip
      (targetStore blocks target)).isEmpty = true := by
    obtain ⟨q, hq, hqp⟩ := hmatch
    unfold matchingIdsOf
    intro hc
    rw [List.isEmpty_iff, List.map_eq_nil_iff] at hc
    have hqf : q ∈ (enumSlots (targetStore blocks target)).filter
        (isReciprocalMatch sourceHubCode (airlineOfFocal focal) ty.flip) :=
      List.mem_filter.mpr ⟨hq, hqp⟩
    rw [hc] at hqf
    simp at hqf
  have hysok : ∀ p ∈ (enumSlots (targetStore blocks target)).map (fun p =>
      (p.1, if (matchingIdsOf sourceHubCode (airlineOfFocal focal) ty.flip
            (targetStore blocks target)).contains p.2.id then
          syncRetime (syncDelta focal) p.2
        else p.2)), p.2.exactTime ≠ none := by
    intro p hp
    rw [List.mem_map] at hp
    obtain ⟨q, hq, hqp⟩ := hp
    by_cases hc : (matchingIdsOf sourceHubCode (airlineOfFocal focal) ty.flip
        (targetStore blocks target)).contains q.2.id = true
    · rw [← hqp]
      simp only [hc, if_true]
      simp [syncRetime]
    · rw [← hqp]
      simp only [Bool.not_eq_true] at hc
      simp only [hc, if_false]
      exact htimes q hq
  obtain ⟨m', hm', hperm⟩ := bucketFold_some_perm _ [] hysok
  have hsync : syncReciprocalUpdate datasets blocks sourceHubCode focal ty freshId =
      some (setBlocks blocks target.id m') := by
    unfold syncReciprocalUpdate
    rw [hfind]
    simp only [hanchor, hexact, Bool.or_self, Bool.false_eq_true, if_false]
    rw [if_pos hfne, hm']
    rfl
  refine ⟨setBlocks blocks target.id m', hsync, ?_⟩
  intro p hp
  have hlook : targetStore (setBlocks blocks target.id m') target = m' := by
    unfold targetStore
    rw [lookupBlocks_setBlocks, if_pos rfl]
    rfl
  rw [hlook]
  have hmem : ∀ f', (p.1, f') ∈ (enumSlots (targetStore blocks target)).map (fun p =>
      (p.1, if (matchingIdsOf sourceHubCode (airlineOfFocal focal) ty.flip
            (targetStore blocks target)).contains p.2.id then
          syncRetime (syncDelta focal) p.2
        else p.2)) → (p.1, f') ∈ enumSlots m' := by
    intro f' hf'
    exact (hperm.mem_iff).mpr hf'
  constructor
  · intro hpm a ha hane
    have hcontains : (matchingIdsOf sourceHubCode (airlineOfFocal focal) ty.flip
        (targetStore blocks target)).contains p.2.id = true := by
      unfold matchingIdsOf
      exact (matchingIds_contains_iff (enumSlots (targetStore blocks target)) _ hids p hp).mpr hpm
    have hform : syncRetime (syncDelta focal) p.2 =
        { p.2 with exactTime := some (minsToTime (jnAdd (getMins a) (syncDelta focal))) } := by
      unfold syncRetime
      have hanchor2 : jsOrStr (jsOrStr p.2.originalHubTime p.2.exactTime) (some ("00:00")) =
          some a := by
        rw [ha]
        have hinner : jsOrStr (some a) p.2.exactTime = some a := by
          rw [jsOrStr, if_neg (by simp [jsFalsyStr, hane])]
        rw [hinner, jsOrStr, if_neg (by simp [jsFalsyStr, hane])]
      rw [hanchor2]
      rfl
    refine hmem _ ?_
    rw [List.mem_map]
    refine ⟨p, hp, ?_⟩
    rw [hcontains]
    simp [hform]
  · intro hpm
    have hcontains : (matchingIdsOf sourceHubCode (airlineOfFocal focal) ty.flip
        (targetStore blocks target)).contains p.2.id = false := by
      unfold matchingIdsOf
      rw [← Bool.not_eq_true]
      intro hc
      have hc2 := (matchingIds_contains_iff (enumSlots (targetStore blocks target)) _
        hids p hp).mp hc
      rw [hpm] at hc2
      exact absurd hc2 (by simp)
    refine hmem _ ?_
    rw [List.mem_map]
    refine ⟨p, hp, ?_⟩
    rw [hcontains]
    simp

/-- C3 witness: the general statement applied to the concrete example
state, showing the hub-B counterpart anchored at 14:00 is placed at its
own anchor plus the focal delta after the focal retime from 10:00 to
10:45. -/
theorem claim_C3_sync_own_anchor_witness :
    ∃ blocks',
      syncReciprocalUpdate [cJED] cBlocks0 "BLR" cFocal1 Dir.arr "n1" = some blocks'
      ∧ (Dir.dep, { cB0 with exactTime := some (minsToTime (jnAdd (getMins ("14:00")) (syncDelta cFocal1))) })
          ∈ enumSlots (targetStore blocks' cJED) := by
  obtain ⟨blocks', hsync, hprop⟩ := claim_C3_sync_own_anchor.1 [cJED] cBlocks0 "BLR"
    cFocal1 Dir.arr "n1" cJED (by decide) (by decide) (by decide)
    ⟨(Dir.dep, cB0), by decide, by decide⟩ (by decide) (by decide)
  refine ⟨blocks', hsync, ?_⟩
  exact (hprop (Dir.dep, cB0) (by decide)).1 (by decide) "14:00" (by decide) (by decide)

/-- C4: when no dataset exists for the reciprocal port, or the focal
flight lacks an anchor or current time, or hub B has neither an existing
linked manual flight nor a matching import row, the sync engine creates
and modifies nothing anywhere (in particular not at hub B), throws no
exception, and therefore leaves the already-committed local edit at hub A
untouched. -/
theorem claim_C4_sync_no_propagation (datasets : List AirportDataset)
    (blocks : Blocks) (sourceHubCode : String) (focal : FlightInfo) (ty : Dir)
    (freshId : String)
    (h : datasets.find? (fun d => d.code = airportPartOf focal) = none
      ∨ (jsFalsyStr focal.originalHubTime = true ∨ jsFalsyStr focal.exactTime = true)
      ∨ (∃ target, datasets.find? (fun d => d.code = airportPartOf focal) = some target
          ∧ (∀ p ∈ enumSlots (targetStore blocks target),
              isReciprocalMatch sourceHubCode (airlineOfFocal focal) ty.flip p = false)
          ∧ target.data.find?
              (csvRowMatches sourceHubCode (airlineOfFocal focal) ty.flip) = none
          ∧ SlotMapWF (targetStore blocks target))) :
    ∃ blocks',
      syncReciprocalUpdate datasets blocks sourceHubCode focal ty freshId = some blocks'
      ∧ ∀ (d : String) (k : SlotKey) (t : Dir),
          flightsAt blocks' d k t = flightsAt blocks d k t := by
  rcases h with hnone | hfalsy | ⟨target, hfind, hnomatch, hcsv, hwf⟩
  · refine ⟨blocks, ?_, fun d k t => rfl⟩
    unfold syncReciprocalUpdate
    rw [hnone]
  · refine ⟨blocks, ?_, fun d k t => rfl⟩
    unfold syncReciprocalUpdate
    rcases hfind : datasets.find? (fun d => d.code = airportPartOf focal) with _ | target
    · rw [hfind]
    · rw [hfind]
      have hcond : (jsFalsyStr focal.originalHubTime || jsFalsyStr focal.exactTime) = true := by
        rcases hfalsy with hf | hf
        · rw [hf]; rfl
        · rw [hf, Bool.or_true]
      rw [hcond]
      rfl
  · have hempty : matchingIdsOf sourceHubCode (airlineOfFocal focal) ty.flip
        (targetStore blocks target) = [] := by
      unfold matchingIdsOf
      rw [List.filter_eq_nil_iff.mpr (by
        intro p hp
        rw [hnomatch p hp]
        simp)]
      rfl
    obtain ⟨m', hm', hflights⟩ := rebuild_carry (targetStore blocks target) hwf
    rcases hfalsy2 : (jsFalsyStr focal.originalHubTime || jsFalsyStr focal.exactTime) with
      _ | _
    · refine ⟨setBlocks blocks target.id m', ?_, ?_⟩
      · unfold syncReciprocalUpdate
        rw [hfind, hfalsy2]
        simp only [Bool.false_eq_true, if_false]
        rw [if_neg (by rw [hempty]; simp)]
        rw [hcsv, hm']
        rfl
      · intro d k t
        unfold flightsAt
        rw [lookupBlocks_setBlocks]
        by_cases hd : d = target.id
        · rw [if_pos hd, hd]
          show slotFlights m' k t = slotFlights ((lookupBlocks blocks target.id).getD []) k t
          exact hflights k t
        · rw [if_neg hd]
    · refine ⟨blocks, ?_, fun d k t => rfl⟩
      unfold syncReciprocalUpdate
      rw [hfind, hfalsy2]
      rfl

/-- C4 witness: with no dataset for the reciprocal port, a retime at hub
A propagates nothing and every store is observably unchanged. -/
theorem claim_C4_sync_no_propagation_witness :
    ∃ blocks',
      syncReciprocalUpdate [] cBlocks0 "BLR" cFocal1 Dir.arr "n9" = some blocks'
      ∧ ∀ (d : String) (k : SlotKey) (t : Dir),
          flightsAt blocks' d k t = flightsAt cBlocks0 d k t :=
  claim_C4_sync_no_propagation [] cBlocks0 "BLR" cFocal1 Dir.arr "n9"
    (Or.inl (by decide))

/-!  ## Derivation pipeline (`App.tsx`, `processedHubData`)

The per-slot aggregation object of `processedHubData`, keyed by
`"CODE-HH:mm-FLIGHTNO"` strings in insertion order.  Fresh aggregate ids
draw from the same explicit random stream `g` with a call counter. -/

/-- One aggregation record. -/
structure Agg where
  freq : ℤ := 0
  seats : ℤ := 0
  pax : ℤ := 0
  airline : Option String := none
  flightNo : Option String := none
  exactTime : String := ""
  id : String := ""
deriving DecidableEq, Repr, Inhabited

/-- The per-slot aggregation: arrivals and departures keyed records. -/
structure AggSlot where
  arrivals : List (String × Agg) := []
  departures : List (String × Agg) := []
deriving DecidableEq, Repr, Inhabited

/-- The aggregation state: one `AggSlot` per hour plus the random-call
counter. -/
structure PHState where
  agg : List AggSlot := []
  c : ℕ := 0
deriving DecidableEq, Repr, Inhabited

/-- `target[key].freq += ...; .seats += ...; .pax += ...`. -/
def bumpAgg (a : Agg) (df ds dp : ℤ) : Agg :=
  { a with freq := a.freq + df, seats := a.seats + ds, pax := a.pax + dp }

/-- The direction's keyed records of a slot. -/
def dirEntries (s : AggSlot) : Dir → List (String × Agg)
  | .arr => s.arrivals
  | .dep => s.departures

/-- Replace the direction's keyed records of a slot. -/
def setDirEntries (s : AggSlot) : Dir → List (String × Agg) → AggSlot
  | .arr, l => { s with arrivals := l }
  | .dep, l => { s with departures := l }

/-- The direction's code column of a row. -/
def rowCode (row : Row) : Dir → Option String
  | .arr => row.arrivalCode
  | .dep => row.departureCode

/-- The direction's airline column of a row. -/
def rowAirline (row : Row) : Dir → Option String
  | .arr => row.arrivalAirline
  | .dep => row.departureAirline

/-- The direction's flight-number column of a row. -/
def rowFlightNo (row : Row) : Dir → Option String
  | .arr => row.arrivalFlightNo
  | .dep => row.departureFlightNo

/-- The direction's frequency column of a row. -/
def rowFreq (row : Row) : Dir → ℤ
  | .arr => row.arrivalFreq
  | .dep => row.departureFreq

/-- The direction's seats column of a row. -/
def rowSeats (row : Row) : Dir → ℤ
  | .arr => row.arrivalSeats
  | .dep => row.departureSeats

/-- The direction's pax column of a row. -/
def rowPax (row : Row) : Dir → ℤ
  | .arr => row.arrivalPax
  | .dep => row.departurePax

/-- `processDirection` inside the row loop of `processedHubData`: filter
by region / airline / market and aggregate into the slot's keyed record,
creating it (with a fresh random id) on first sight.  `row[...Freq] || 0`
is the identity on the integer row fields produced by `parseCSVData`. -/
def processDirection (g : ℕ → String) (selectedRegions : List Region)
    (selectedAirlines : List String) (marketFilter : MarketSegment)
    (alwaysFocusBLR : Bool) (activeCode : String)
    (row : Row) (slotIndex : ℕ) (dir : Dir) (st : PHState) : PHState :=
  match rowCode row dir with
  | none => st
  | some c0 =>
    let code := toUpperJS c0
    if code.data.length < 3 then st
    else
      let region := airportRegions code
      let airline := rowAirline row dir
      let market := if indianAirports code then MarketSegment.Domestic
        else MarketSegment.International
      let passesRegion := selectedRegions.contains region ||
        (alwaysFocusBLR && decide (code = activeCode))
      let passesAirline := !jsFalsyStr airline &&
        (selectedAirlines.isEmpty || selectedAirlines.contains (airline.getD ""))
      let passesMarket := decide (marketFilter = MarketSegment.All) ||
        decide (market = marketFilter)
      if passesRegion && passesAirline && passesMarket then
        let flightNo := rowFlightNo row dir
        let key := code ++ "-" ++ row.hub_time ++ "-" ++
          ((jsOrStr flightNo (some ("XX"))).getD "")
        let df := rowFreq row dir
        let ds := rowSeats row dir
        let dp := rowPax row dir
        let slotAgg := st.agg.getD slotIndex default
        let entries := dirEntries slotAgg dir
        if (entries.find? (fun p => p.1 = key)).isSome then
          { st with agg := st.agg.set slotIndex (setDirEntries slotAgg dir
              (entries.map (fun p =>
                if p.1 = key then (p.1, bumpAgg p.2 df ds dp) else p))) }
        else
          let fresh : Agg :=
            { airline := airline
              flightNo := flightNo
              exactTime := row.hub_time
              id := g st.c }
          { agg := st.agg.set slotIndex (setDirEntries slotAgg dir
              (entries ++ [(key, bumpAgg fresh df ds dp)]))
            c := st.c + 1 }
      else st

/-- One row of the aggregation loop: skip rows without a parsable
hub time or with an out-of-range slot, else process both directions. -/
def processRow (g : ℕ → String) (selectedRegions : List Region)
    (selectedAirlines : List String) (marketFilter : MarketSegment)
    (alwaysFocusBLR : Bool) (activeCode : String)
    (st : PHState) (row : Row) : PHState :=
  if row.hub_time.data.isEmpty || ¬ containsColon row.hub_time then st
  else
    match jsHourOf row.hub_time with
    | none => st
    | some si =>
      if si < 0 ∨ si > 23 then st
      else
        processDirection g selectedRegions selectedAirlines marketFilter alwaysFocusBLR
          activeCode row si.toNat Dir.dep
          (processDirection g selectedRegions selectedAirlines marketFilter alwaysFocusBLR
            activeCode row si.toNat Dir.arr st)

/-- `mapEntries`: turn one aggregation record into a `FlightInfo` (the
code is the first dash-separated component of the key). -/
def aggToFlight (p : String × Agg) : FlightInfo :=
  let code := String.mk ((splitOnChar '-' p.1.data).getD 0 [])
  { code := code
    freq := p.2.freq
    seats := some p.2.seats
    pax := some p.2.pax
    region := airportRegions code
    airline := p.2.airline
    flightNo := p.2.flightNo
    exactTime := some p.2.exactTime
    id := some p.2.id
    isManual := false }

/-- `TIME_SLOTS[i]`. -/
def timeSlotLabel (i : ℕ) : String :=
  String.mk (padStart2 (natToDigits i) ++ ':' :: '0' :: '0' :: [])

/-- `processedHubData`: aggregate the active dataset's rows into 24 hour
slots and append the active dataset's manual blocks per slot. -/
def processedHubData (g : ℕ → String) (activeDataset : AirportDataset)
    (manualBlocks : Blocks) (selectedRegions : List Region)
    (selectedAirlines : List String) (marketFilter : MarketSegment)
    (alwaysFocusBLR : Bool) : List HubSlot :=
  let stF := activeDataset.data.foldl
    (processRow g selectedRegions selectedAirlines marketFilter alwaysFocusBLR
      activeDataset.code)
    { agg := List.replicate 24 default, c := 0 }
  (List.range 24).map (fun idx =>
    let slotAgg := stF.agg.getD idx default
    let manual := (lookupSlot ((lookupBlocks manualBlocks activeDataset.id).getD [])
      (some ((idx : ℤ)))).getD {}
    { label := timeSlotLabel idx
      arrivals := slotAgg.arrivals.map aggToFlight ++ manual.arrivals
      departures := slotAgg.departures.map aggToFlight ++ manual.departures })

/-- C9 counterexample data: one import row that passes the default
filters. -/
def cRow : Row :=
  { arrivalAirline := some "EK"
    arrivalFlightNo := some "EK567"
    arrivalCode := some "DXB"
    arrivalFreq := 7
    arrivalSeats := 100
    arrivalPax := 80
    hub_time := "08:00" }

/-- C9 counterexample data: the active dataset. -/
def cDs : AirportDataset := { id := "blrid", code := "BLR", data := [cRow] }

/-- C9 counterexample: two runs of the derivation pipeline on identical
input state produce different outputs — the synthetic block identifiers
come from `Math.random()` and differ between runs, so the claimed
identity of outputs "including block identifiers" fails. -/
theorem claim_C9_counterexample :
    processedHubData (fun _ => "ida") cDs [] [Region.MiddleEast] []
        MarketSegment.All true ≠
      processedHubData (fun _ => "idb") cDs [] [Region.MiddleEast] []
        MarketSegment.All true := by
  decide

/-!  ### Identity-stripping: the pipeline modulo the random ids -/

/-- Erase a flight's synthetic id. -/
def stripFlight (f : FlightInfo) : FlightInfo := { f with id := none }

/-- Erase ids throughout a slot. -/
def stripSlot (s : HubSlot) : HubSlot :=
  { s with arrivals := s.arrivals.map stripFlight
           departures := s.departures.map stripFlight }

/-- Erase ids throughout a block, constituents included. -/
def stripBlock (b : Block) : Block :=
  { base := stripFlight b.base
    mergedFlights := b.mergedFlights.map (fun l => l.map stripFlight) }

/-- Erase ids throughout a consolidated slot. -/
def stripSB (s : SlotBlocks) : SlotBlocks :=
  { s with arrivals := s.arrivals.map stripBlock
           departures := s.departures.map stripBlock }

/-- Erase a grouping entry's ids. -/
def stripGroup (p : String × List FlightInfo) : String × List FlightInfo :=
  (p.1, p.2.map stripFlight)

lemma stripGroup_upd (f : FlightInfo) (p : String × List FlightInfo) :
    stripGroup (if p.1 = f.code then (p.1, p.2 ++ [f]) else p) =
      (if (stripGroup p).1 = (stripFlight f).code then
        ((stripGroup p).1, (stripGroup p).2 ++ [stripFlight f]) else stripGroup p) := by
  obtain ⟨k, l⟩ := p
  by_cases hp : k = f.code
  · simp [stripGroup, stripFlight, hp]
  · simp [stripGroup, stripFlight, hp]

lemma upsertGroup_strip (gs : List (String × List FlightInfo)) (f : FlightInfo) :
    (upsertGroup gs f).map stripGroup =
      upsertGroup (gs.map stripGroup) (stripFlight f) := by
  unfold upsertGroup
  have hcode : (stripFlight f).code = f.code := rfl
  have hfind : ((gs.map stripGroup).find? (fun p => p.1 = (stripFlight f).code)).isSome =
      (gs.find? (fun p => p.1 = f.code)).isSome := by
    rw [hcode, List.find?_map]
    have hp : ((fun p : String × List FlightInfo => decide (p.1 = f.code)) ∘ stripGroup) =
        (fun p : String × List FlightInfo => decide (p.1 = f.code)) := by
      funext p
      rfl
    rw [hp]
    cases List.find? (fun p : String × List FlightInfo => decide (p.1 = f.code)) gs <;> rfl
  by_cases hmem : (gs.find? (fun p => p.1 = f.code)).isSome
  · rw [if_pos hmem, if_pos (by rw [hfind]; exact hmem)]
    rw [List.map_map, List.map_map]
    apply List.map_congr_left
    intro p _
    simp only [Function.comp_apply]
    exact stripGroup_upd f p
  · rw [if_neg hmem, if_neg (by rw [hfind]; exact hmem)]
    rw [List.map_append]
    rfl

lemma groupFlights_strip (l : List FlightInfo) :
    groupFlights (l.map stripFlight) = (groupFlights l).map stripGroup := by
  unfold groupFlights
  have main : ∀ (l' : List FlightInfo) (acc : List (String × List FlightInfo)),
      (l'.map stripFlight).foldl upsertGroup (acc.map stripGroup) =
        (l'.foldl upsertGroup acc).map stripGroup := by
    intro l'
    induction l' with
    | nil => intro acc; rfl
    | cons f rest ih =>
      intro acc
      rw [List.map_cons, List.foldl_cons, List.foldl_cons, ← upsertGroup_strip, ih]
  have h0 : ([] : List (String × List FlightInfo)) =
      ([] : List (String × List FlightInfo)).map stripGroup := rfl
  rw [h0]
  exact main l []

lemma processGroups_cons_nil (g : ℕ → String) (c : ℕ) (key : String)
    (rest : List (String × List FlightInfo)) :
    processGroups g c ((key, []) :: rest) =
      (mergedBlock (g c) [] :: (processGroups g (c + 1) rest).1,
        (processGroups g (c + 1) rest).2) := by
  rcases hpr : processGroups g (c + 1) rest with ⟨bs, c'⟩
  simp [processGroups, hpr]

lemma stripBlock_single (f : FlightInfo) :
    stripBlock (Block.single f) = Block.single (stripFlight f) := rfl

lemma headD_map_stripFlight (grp : List FlightInfo) :
    (grp.map stripFlight).headD default = stripFlight (grp.headD default) := by
  cases grp <;> rfl

lemma sum_freq_strip (grp : List FlightInfo) :
    ((grp.map stripFlight).map (fun f => f.freq)).sum = (grp.map (fun f => f.freq)).sum := by
  rw [List.map_map]
  rfl

lemma sum_seats_strip (grp : List FlightInfo) :
    ((grp.map stripFlight).map (fun f => f.seats.getD 0)).sum =
      (grp.map (fun f => f.seats.getD 0)).sum := by
  rw [List.map_map]
  rfl

lemma sum_pax_strip (grp : List FlightInfo) :
    ((grp.map stripFlight).map (fun f => f.pax.getD 0)).sum =
      (grp.map (fun f => f.pax.getD 0)).sum := by
  rw [List.map_map]
  rfl

lemma stripBlock_mergedBlock (r : String) (grp : List FlightInfo) :
    stripBlock (mergedBlock r grp) =
      { base := { stripFlight (grp.headD default) with
          freq := (grp.map (fun f => f.freq)).sum
          seats := some ((grp.map (fun f => f.seats.getD 0)).sum)
          pax := some ((grp.map (fun f => f.pax.getD 0)).sum) }
        mergedFlights := some (grp.map stripFlight) } := rfl

lemma processGroups_strip_rel (groups1 : List (String × List FlightInfo)) :
    ∀ (groups2 : List (String × List FlightInfo)) (g1 g2 : ℕ → String) (c1 c2 : ℕ),
    groups1.map stripGroup = groups2.map stripGroup →
    ((processGroups g1 c1 groups1).1).map stripBlock =
      ((processGroups g2 c2 groups2).1).map stripBlock := by
  induction groups1 with
  | nil =>
    intro groups2 g1 g2 c1 c2 h
    have h2 : groups2.map stripGroup = [] := by simpa using h.symm
    have h3 : groups2 = [] := List.map_eq_nil_iff.mp h2
    subst h3
    rfl
  | cons hd rest ih =>
    intro groups2 g1 g2 c1 c2 h
    rcases groups2 with _ | ⟨hd2, rest2⟩
    · rw [List.map_cons] at h
      exact absurd h (by simp)
    rw [List.map_cons, List.map_cons] at h
    have hhd : stripGroup hd = stripGroup hd2 := (List.cons.injEq _ _ _ _ ▸ h).1
    have hrest : rest.map stripGroup = rest2.map stripGroup :=
      (List.cons.injEq _ _ _ _ ▸ h).2
    obtain ⟨k, grp⟩ := hd
    obtain ⟨k2, grp2⟩ := hd2
    have hk : k = k2 := congrArg Prod.fst hhd
    have hgrp : grp.map stripFlight = grp2.map stripFlight := congrArg Prod.snd hhd
    have hlen : grp.length = grp2.length := by
      have := congrArg List.length hgrp
      simpa using this
    rcases grp with _ | ⟨x, grp'⟩
    · have : grp2 = [] := List.length_eq_zero.mp (by simp at hlen; omega)
      subst this
      rw [processGroups_cons_nil, processGroups_cons_nil]
      rw [List.map_cons, List.map_cons, ih rest2 g1 g2 _ _ hrest]
      congr 1
    rcases grp' with _ | ⟨y, ys⟩
    · have h1 : grp2.length = 1 := by simp at hlen; omega
      rcases grp2 with _ | ⟨x2, grp2'⟩
      · simp at h1
      rcases grp2' with _ | _
      · rw [processGroups_cons_single, processGroups_cons_single]
        rw [List.map_cons, List.map_cons, ih rest2 g1 g2 _ _ hrest]
        have hx : stripFlight x = stripFlight x2 := by
          have := hgrp
          simp only [List.map_cons, List.map_nil] at this
          exact (List.cons.injEq _ _ _ _ ▸ this).1
        rw [stripBlock_single, stripBlock_single, hx]
      · simp at h1
    · have h2 : 2 ≤ grp2.length := by simp at hlen; omega
      rcases grp2 with _ | ⟨x2, grp2'⟩
      · simp at h2
      rcases grp2' with _ | ⟨y2, ys2⟩
      · simp at h2
      rw [processGroups_cons_merged, processGroups_cons_merged]
      rw [List.map_cons, List.map_cons, ih rest2 g1 g2 _ _ hrest]
      congr 1
      rw [stripBlock_mergedBlock, stripBlock_mergedBlock]
      have hh : stripFlight ((x :: y :: ys).headD default) =
          stripFlight ((x2 :: y2 :: ys2).headD default) := by
        rw [← headD_map_stripFlight, ← headD_map_stripFlight, hgrp]
      have hf : ((x :: y :: ys).map (fun f => f.freq)).sum =
          ((x2 :: y2 :: ys2).map (fun f => f.freq)).sum := by
        rw [← sum_freq_strip, ← sum_freq_strip (x2 :: y2 :: ys2), hgrp]
      have hs : ((x :: y :: ys).map (fun f => f.seats.getD 0)).sum =
          ((x2 :: y2 :: ys2).map (fun f => f.seats.getD 0)).sum := by
        rw [← sum_seats_strip, ← sum_seats_strip (x2 :: y2 :: ys2), hgrp]
      have hp : ((x :: y :: ys).map (fun f => f.pax.getD 0)).sum =
          ((x2 :: y2 :: ys2).map (fun f => f.pax.getD 0)).sum := by
        rw [← sum_pax_strip, ← sum_pax_strip (x2 :: y2 :: ys2), hgrp]
      rw [hh, hf, hs, hp, hgrp]

lemma groupByType_fst (g : ℕ → String) (c : ℕ) (fl : List FlightInfo) :
    (groupByType g c fl).1 =
      (processGroups g c (groupFlights (fl.filter (fun f => !f.isManual)))).1 ++
        (fl.filter (fun f => f.isManual)).map Block.single := by
  rcases hpg : processGroups g c (groupFlights (fl.filter (fun f => !f.isManual)))
    with ⟨bs, c'⟩
  simp [groupByType, hpg]

lemma groupByType_strip_rel (fl1 fl2 : List FlightInfo) (g1 g2 : ℕ → String)
    (c1 c2 : ℕ) (h : fl1.map stripFlight = fl2.map stripFlight) :
    ((groupByType g1 c1 fl1).1).map stripBlock =
      ((groupByType g2 c2 fl2).1).map stripBlock := by
  rw [groupByType_fst, groupByType_fst, List.map_append, List.map_append]
  have hmanual : (fl1.filter (fun f => f.isManual)).map stripFlight =
      (fl2.filter (fun f => f.isManual)).map stripFlight := by
    have h1 : ∀ fl : List FlightInfo, (fl.map stripFlight).filter (fun f => f.isManual) =
        (fl.filter (fun f => f.isManual)).map stripFlight := by
      intro fl
      rw [List.filter_map]
      rfl
    rw [← h1, ← h1, h]
  have hauto : (fl1.filter (fun f => !f.isManual)).map stripFlight =
      (fl2.filter (fun f => !f.isManual)).map stripFlight := by
    have h1 : ∀ fl : List FlightInfo, (fl.map stripFlight).filter (fun f => !f.isManual) =
        (fl.filter (fun f => !f.isManual)).map stripFlight := by
      intro fl
      rw [List.filter_map]
      rfl
    rw [← h1, ← h1, h]
  congr 1
  · apply processGroups_strip_rel
    rw [← groupFlights_strip, ← groupFlights_strip, hauto]
  · rw [List.map_map, List.map_map]
    have hcomp : ∀ fl : List FlightInfo,
        fl.map (stripBlock ∘ Block.single) = (fl.map stripFlight).map Block.single := by
      intro fl
      rw [List.map_map]
      rfl
    rw [hcomp, hcomp, hmanual]

lemma consolidated_strip_rel (d1 : List HubSlot) :
    ∀ (d2 : List HubSlot) (g1 g2 : ℕ → String) (c1 c2 : ℕ),
    d1.map stripSlot = d2.map stripSlot →
    ((consolidatedData g1 c1 d1).1).map stripSB =
      ((consolidatedData g2 c2 d2).1).map stripSB := by
  induction d1 with
  | nil =>
    intro d2 g1 g2 c1 c2 h
    have h2 : d2.map stripSlot = [] := by simpa using h.symm
    have h3 : d2 = [] := List.map_eq_nil_iff.mp h2
    subst h3
    rfl
  | cons s1 rest1 ih =>
    intro d2 g1 g2 c1 c2 h
    rcases d2 with _ | ⟨s2, rest2⟩
    · rw [List.map_cons] at h
      exact absurd h (by simp)
    rw [List.map_cons, List.map_cons] at h
    have hs : stripSlot s1 = stripSlot s2 := (List.cons.injEq _ _ _ _ ▸ h).1
    have hrest : rest1.map stripSlot = rest2.map stripSlot :=
      (List.cons.injEq _ _ _ _ ▸ h).2
    have hlabel : s1.label = s2.label := by
      have := congrArg HubSlot.label hs
      simpa [stripSlot] using this
    have harr : s1.arrivals.map stripFlight = s2.arrivals.map stripFlight := by
      have := congrArg HubSlot.arrivals hs
      simpa [stripSlot] using this
    have hdep : s1.departures.map stripFlight = s2.departures.map stripFlight := by
      have := congrArg HubSlot.departures hs
      simpa [stripSlot] using this
    rw [consolidatedData_cons, consolidatedData_cons, List.map_cons, List.map_cons]
    congr 1
    · unfold stripSB
      simp only
      rw [hlabel]
      rw [groupByType_strip_rel s1.arrivals s2.arrivals g1 g2 _ _ harr]
      rw [groupByType_strip_rel s1.departures s2.departures g1 g2 _ _ hdep]
    · exact ih rest2 g1 g2 _ _ hrest

/-- Erase an aggregation record's fresh id. -/
def stripAgg (a : Agg) : Agg := { a with id := "" }

/-- Erase a keyed aggregation entry's id. -/
def stripAggEntry (p : String × Agg) : String × Agg := (p.1, stripAgg p.2)

/-- Erase ids throughout a slot aggregate. -/
def stripAggSlot (s : AggSlot) : AggSlot :=
  { arrivals := s.arrivals.map stripAggEntry
    departures := s.departures.map stripAggEntry }

lemma getD_map {α β : Type} (f : α → β) (l : List α) :
    ∀ (i : ℕ) (d : α), (l.map f).getD i (f d) = f (l.getD i d) := by
  induction l with
  | nil => intro i d; rfl
  | cons a t ih =>
    intro i d
    cases i with
    | zero => rfl
    | succ j => exact ih j d

lemma map_set {α β : Type} (f : α → β) (l : List α) :
    ∀ (i : ℕ) (a : α), (l.set i a).map f = (l.map f).set i (f a) := by
  induction l with
  | nil => intro i a; rfl
  | cons x t ih =>
    intro i a
    cases i with
    | zero => rfl
    | succ j =>
      show (x :: t.set j a).map f = f x :: (t.map f).set j (f a)
      rw [List.map_cons, ih]

lemma find_key_isSome_strip (entries : List (String × Agg)) (key : String) :
    ((entries.map stripAggEntry).find? (fun p => p.1 = key)).isSome =
      (entries.find? (fun p => p.1 = key)).isSome := by
  rw [List.find?_map]
  have hp : ((fun p : String × Agg => decide (p.1 = key)) ∘ stripAggEntry) =
      (fun p : String × Agg => decide (p.1 = key)) := by
    funext p
    rfl
  rw [hp]
  cases List.find? (fun p : String × Agg => decide (p.1 = key)) entries <;> rfl

lemma dirEntries_strip (s : AggSlot) (dir : Dir) :
    dirEntries (stripAggSlot s) dir = (dirEntries s dir).map stripAggEntry := by
  cases dir <;> rfl

lemma stripAggSlot_setDirEntries (s : AggSlot) (dir : Dir) (l : List (String × Agg)) :
    stripAggSlot (setDirEntries s dir l) =
      setDirEntries (stripAggSlot s) dir (l.map stripAggEntry) := by
  cases dir <;> rfl

lemma stripAggEntry_bumpMap (key : String) (df ds dp : ℤ) (l : List (String × Agg)) :
    (l.map (fun p => if p.1 = key then (p.1, bumpAgg p.2 df ds dp) else p)).map
        stripAggEntry =
      (l.map stripAggEntry).map
        (fun p => if p.1 = key then (p.1, bumpAgg p.2 df ds dp) else p) := by
  rw [List.map_map, List.map_map]
  apply List.map_congr_left
  intro p _
  obtain ⟨k, a⟩ := p
  by_cases hp : k = key
  · simp [stripAggEntry, stripAgg, bumpAgg, hp]
  · simp [stripAggEntry, stripAgg, bumpAgg, hp]

lemma processDirection_strip (g1 g2 : ℕ → String) (sr : List Region)
    (sa : List String) (mf : MarketSegment) (fb : Bool) (ac : String)
    (row : Row) (si : ℕ) (dir : Dir) (st1 st2 : PHState)
    (h : st1.agg.map stripAggSlot = st2.agg.map stripAggSlot) :
    (processDirection g1 sr sa mf fb ac row si dir st1).agg.map stripAggSlot =
      (processDirection g2 sr sa mf fb ac row si dir st2).agg.map stripAggSlot := by
  have hslot : stripAggSlot (st1.agg.getD si default) =
      stripAggSlot (st2.agg.getD si default) := by
    have h1 := getD_map stripAggSlot st1.agg si default
    have h2 := getD_map stripAggSlot st2.agg si default
    have hd : stripAggSlot (default : AggSlot) = default := rfl
    rw [hd] at h1 h2
    rw [← h1, ← h2, h]
  have hent : ∀ d : Dir, (dirEntries (st1.agg.getD si default) d).map stripAggEntry =
      (dirEntries (st2.agg.getD si default) d).map stripAggEntry := by
    intro d
    rw [← dirEntries_strip, ← dirEntries_strip, hslot]
  unfold processDirection
  rcases hm : rowCode row dir with _ | c0
  · exact h
  simp only
  by_cases hlen : (toUpperJS c0).data.length < 3
  · rw [if_pos hlen, if_pos hlen]
    exact h
  rw [if_neg hlen, if_neg hlen]
  by_cases hpass : ((sr.contains (airportRegions (toUpperJS c0)) ||
      (fb && decide (toUpperJS c0 = ac))) &&
    (!jsFalsyStr (rowAirline row dir) &&
      (sa.isEmpty || sa.contains ((rowAirline row dir).getD ""))) &&
    (decide (mf = MarketSegment.All) ||
      decide ((if indianAirports (toUpperJS c0) then MarketSegment.Domestic
        else MarketSegment.International) = mf))) = true
  · rw [if_pos hpass, if_pos hpass]
    set key := toUpperJS c0 ++ "-" ++ row.hub_time ++ "-" ++
      ((jsOrStr (rowFlightNo row dir) (some ("XX"))).getD "") with hkey
    have hfind : ((dirEntries (st1.agg.getD si default) dir).find?
        (fun p => p.1 = key)).isSome =
      ((dirEntries (st2.agg.getD si default) dir).find?
        (fun p => p.1 = key)).isSome := by
      rw [← find_key_isSome_strip (dirEntries (st1.agg.getD si default) dir) key,
        hent dir, find_key_isSome_strip]
    by_cases hf : ((dirEntries (st1.agg.getD si default) dir).find?
        (fun p => p.1 = key)).isSome = true
    · rw [if_pos hf, if_pos (by rw [← hfind]; exact hf)]
      simp only
      rw [map_set, map_set, h]
      congr 1
      rw [stripAggSlot_setDirEntries, stripAggSlot_setDirEntries, hslot]
      congr 1
      rw [stripAggEntry_bumpMap, stripAggEntry_bumpMap, hent dir]
    · rw [if_neg hf, if_neg (by rw [← hfind]; exact hf)]
      simp only
      rw [map_set, map_set, h]
      congr 1
      rw [stripAggSlot_setDirEntries, stripAggSlot_setDirEntries, hslot]
      congr 1
      rw [List.map_append, List.map_append, hent dir]
      rfl
  · rw [if_neg (by simpa using hpass), if_neg (by simpa using hpass)]
    exact h

lemma processRow_strip (g1 g2 : ℕ → String) (sr : List Region)
    (sa : List String) (mf : MarketSegment) (fb : Bool) (ac : String)
    (st1 st2 : PHState) (row : Row)
    (h : st1.agg.map stripAggSlot = st2.agg.map stripAggSlot) :
    (processRow g1 sr sa mf fb ac st1 row).agg.map stripAggSlot =
      (processRow g2 sr sa mf fb ac st2 row).agg.map stripAggSlot := by
  unfold processRow
  by_cases h1 : row.hub_time.data.isEmpty = true ∨ ¬ containsColon row.hub_time = true
  · rw [if_pos (by simpa using h1), if_pos (by simpa using h1)]
    exact h
  rw [if_neg (by simpa using h1), if_neg (by simpa using h1)]
  rcases hh : jsHourOf row.hub_time with _ | si
  · exact h
  simp only
  by_cases h2 : si < 0 ∨ si > 23
  · rw [if_pos h2, if_pos h2]
    exact h
  rw [if_neg h2, if_neg h2]
  exact processDirection_strip g1 g2 sr sa mf fb ac row si.toNat Dir.dep _ _
    (processDirection_strip g1 g2 sr sa mf fb ac row si.toNat Dir.arr st1 st2 h)

lemma foldl_processRow_strip (g1 g2 : ℕ → String) (sr : List Region)
    (sa : List String) (mf : MarketSegment) (fb : Bool) (ac : String)
    (rows : List Row) :
    ∀ (st1 st2 : PHState), st1.agg.map stripAggSlot = st2.agg.map stripAggSlot →
    ((rows.foldl (processRow g1 sr sa mf fb ac) st1).agg).map stripAggSlot =
      ((rows.foldl (processRow g2 sr sa mf fb ac) st2).agg).map stripAggSlot := by
  induction rows with
  | nil => intro st1 st2 h; exact h
  | cons r rest ih =>
    intro st1 st2 h
    exact ih _ _ (processRow_strip g1 g2 sr sa mf fb ac st1 st2 r h)

lemma map_aggToFlight_strip (l : List (String × Agg)) :
    (l.map aggToFlight).map stripFlight =
      ((l.map stripAggEntry).map aggToFlight).map stripFlight := by
  rw [List.map_map, List.map_map, List.map_map]
  apply List.map_congr_left
  intro p _
  rfl

lemma processedHubData_strip (g1 g2 : ℕ → String) (ds : AirportDataset)
    (mb : Blocks) (sr : List Region) (sa : List String) (mf : MarketSegment)
    (fb : Bool) :
    (processedHubData g1 ds mb sr sa mf fb).map stripSlot =
      (processedHubData g2 ds mb sr sa mf fb).map stripSlot := by
  unfold processedHubData
  simp only
  rw [List.map_map, List.map_map]
  apply List.map_congr_left
  intro idx _
  have hfold := foldl_processRow_strip g1 g2 sr sa mf fb ds.code ds.data
    { agg := List.replicate 24 default, c := 0 }
    { agg := List.replicate 24 default, c := 0 } rfl
  have hslot : stripAggSlot
      ((ds.data.foldl (processRow g1 sr sa mf fb ds.code)
        { agg := List.replicate 24 default, c := 0 }).agg.getD idx default) =
    stripAggSlot
      ((ds.data.foldl (processRow g2 sr sa mf fb ds.code)
        { agg := List.replicate 24 default, c := 0 }).agg.getD idx default) := by
    have h1 := getD_map stripAggSlot
      (ds.data.foldl (processRow g1 sr sa mf fb ds.code)
        { agg := List.replicate 24 default, c := 0 }).agg idx default
    have h2 := getD_map stripAggSlot
      (ds.data.foldl (processRow g2 sr sa mf fb ds.code)
        { agg := List.replicate 24 default, c := 0 }).agg idx default
    have hd : stripAggSlot (default : AggSlot) = default := rfl
    rw [hd] at h1 h2
    rw [← h1, ← h2, hfold]
  have harr := congrArg AggSlot.arrivals hslot
  have hdep := congrArg AggSlot.departures hslot
  simp only [stripAggSlot] at harr hdep
  simp only [Function.comp_apply, stripSlot]
  rw [List.map_append, List.map_append, List.map_append, List.map_append]
  rw [map_aggToFlight_strip, harr,
    map_aggToFlight_strip
      ((ds.data.foldl (processRow g1 sr sa mf fb ds.code)
        { agg := List.replicate 24 default, c := 0 }).agg.getD idx
          default).departures,
    hdep, ← map_aggToFlight_strip, ← map_aggToFlight_strip]

/-- C9 (amended): two evaluations of the derivation pipeline on the same
dataset, manual blocks and filters — whatever their `Math.random()`
streams and call counters — produce hub slots identical in every field
except the randomly generated synthetic id fields, and this identity
persists through the chart's bank consolidation, whose outputs again agree
everywhere except their random merged-block ids. -/
theorem claim_C9_amended :
    (∀ (g1 g2 : ℕ → String) (ds : AirportDataset) (mb : Blocks)
        (sr : List Region) (sa : List String) (mf : MarketSegment) (fb : Bool),
      (processedHubData g1 ds mb sr sa mf fb).map stripSlot =
        (processedHubData g2 ds mb sr sa mf fb).map stripSlot)
    ∧ (∀ (g1 g2 gc1 gc2 : ℕ → String) (c1 c2 : ℕ) (ds : AirportDataset)
        (mb : Blocks) (sr : List Region) (sa : List String)
        (mf : MarketSegment) (fb : Bool),
      ((consolidatedData gc1 c1 (processedHubData g1 ds mb sr sa mf fb)).1).map
          stripSB =
        ((consolidatedData gc2 c2 (processedHubData g2 ds mb sr sa mf fb)).1).map
          stripSB) := by
  constructor
  · intro g1 g2 ds mb sr sa mf fb
    exact processedHubData_strip g1 g2 ds mb sr sa mf fb
  · intro g1 g2 gc1 gc2 c1 c2 ds mb sr sa mf fb
    exact consolidated_strip_rel _ _ gc1 gc2 c1 c2
      (processedHubData_strip g1 g2 ds mb sr sa mf fb)

end AeroHub
